import Mathlib

/-!
Shallow embedding of the TapDigit expression pipeline: the closure-based
module of src/tapDigit.ts — a hand-written lexer, a recursive-descent
parser and a tree-walking evaluator over an environment of constants,
variables and functions — and the class-based revision of
src/demo/demo.js (its second document), whose environment-aware `Parser`
validates function calls against the `Functions` table of its `TContext`
and whose errors carry a column position in the message.

Modelling conventions:
* The lexer's mutable module state (`expression`, `index`, `marker`) becomes
  an explicit `LexState` record threaded through every operation; a thrown
  `SyntaxError` becomes the `Except.error` branch carrying the message
  string, paired with the post-throw state (JS exceptions leave mutations
  in place).
* JS numbers are modelled as exact rationals `ℚ`; every numeric value
  reached by the claims below (small integer literals and their sums and
  products) is exactly representable as an IEEE-754 double, on which the
  JS arithmetic agrees with `ℚ` arithmetic.
* The parser's unbounded recursion is driven by an explicit fuel counter;
  `parse` supplies fuel proportional to the input length, which the
  concrete computations below never exhaust.
-/

namespace TapDigit

/-- Token record of the TS `TToken` type: `{type, value, start, end}`.
`end` is spelled `tokEnd` because `end` is reserved in Lean. -/
structure TToken where
  type : String
  value : String
  start : Nat
  tokEnd : Nat
  deriving DecidableEq, Repr

/-- A token as returned by `peek`: `start`/`end` deleted (`delete token.start`,
`delete token.end` in the TS source). -/
structure PTok where
  type : String
  value : String
  deriving DecidableEq, Repr

/-- Drop the position fields, as `peek` does before returning a token. -/
def strip (t : TToken) : PTok := { type := t.type, value := t.value }

/-- The `TapDigit.Token` name table. -/
def T.Operator : String := "Operator"
def T.Identifier : String := "Identifier"
def T.Number : String := "Number"

/-- Lexer state: `expression` (as its character list), the cursor `index`
and the scan-start `marker`, exactly the closure variables of `Lexer()`.
`length` of the TS source is always `chars.length` (both are set only by
`reset`), so it is not stored separately. -/
structure LexState where
  chars : List Char
  index : Nat
  marker : Nat
  deriving DecidableEq, Repr

/-- `reset(str)`: begin scanning `str` from offset 0. -/
def resetState (str : String) : LexState :=
  { chars := str.data, index := 0, marker := 0 }

/-- `peekNextChar()`: the character at `index`, or `'\x00'` past the end. -/
def peekNextChar (s : LexState) : Char :=
  s.chars.getD s.index '\x00'

/-- `getNextChar()`: consume and return the character at `index`
(`'\x00'` and no movement past the end). -/
def getNextChar (s : LexState) : Char × LexState :=
  if s.index < s.chars.length then
    (s.chars.getD s.index '\x00', { s with index := s.index + 1 })
  else ('\x00', s)

def isWhiteSpace (ch : Char) : Bool :=
  ch = '\t' || ch = ' ' || ch = ' '

def isLetter (ch : Char) : Bool :=
  ('a' ≤ ch && ch ≤ 'z') || ('A' ≤ ch && ch ≤ 'Z')

def isDecimalDigit (ch : Char) : Bool :=
  '0' ≤ ch && ch ≤ '9'

/-- `createToken(type, value)`: positions are `[marker, index - 1]`. -/
def createToken (type value : String) (s : LexState) : TToken :=
  { type := type, value := value, start := s.marker, tokEnd := s.index - 1 }

/-- The body of `skipSpaces()`, iterated on explicit fuel so that the
definition is structurally recursive (and so computes definitionally).
Each iteration advances the cursor by one, so `chars.length - index` — the
fuel the wrapper supplies — bounds the iteration count exactly; with fuel
`0` the cursor is at or past the end and the source loop would break too. -/
def skipSpacesF : Nat → LexState → LexState
  | 0, s => s
  | n+1, s =>
    if s.index < s.chars.length then
      if isWhiteSpace (peekNextChar s) then
        skipSpacesF n { s with index := s.index + 1 }
      else s
    else s

/-- `skipSpaces()`: advance the cursor over whitespace. -/
def skipSpaces (s : LexState) : LexState :=
  skipSpacesF (s.chars.length - s.index) s

/-- `scanOperator()`: single-character operators `+-*/()^%=;,`. -/
def scanOperator (s : LexState) : Option TToken × LexState :=
  let ch := peekNextChar s
  if ch ∈ ['+', '-', '*', '/', '(', ')', '^', '%', '=', ';', ','] then
    let (c, s') := getNextChar s
    (some (createToken T.Operator c.toString s'), s')
  else (none, s)

def isIdentifierStart (ch : Char) : Bool :=
  ch = '_' || isLetter ch

def isIdentifierPart (ch : Char) : Bool :=
  isIdentifierStart ch || isDecimalDigit ch

/-- The identifier-continuation loop of `scanIdentifier`, on explicit
fuel (see `skipSpacesF`): past the end of the input `peekNextChar` yields
`'\x00'`, which is not an identifier part, so the source loop would break
exactly where the fuel runs out. -/
def scanIdentAuxF : Nat → LexState → String → String × LexState
  | 0, s, id => (id, s)
  | n+1, s, id =>
    if isIdentifierPart (peekNextChar s) then
      let p := getNextChar s
      scanIdentAuxF n p.2 (id.push p.1)
    else (id, s)

/-- The identifier-continuation loop of `scanIdentifier`. -/
def scanIdentAux (s : LexState) (id : String) : String × LexState :=
  scanIdentAuxF (s.chars.length - s.index) s id

/-- `scanIdentifier()`. -/
def scanIdentifier (s : LexState) : Option TToken × LexState :=
  let ch := peekNextChar s
  if isIdentifierStart ch then
    let (c, s₁) := getNextChar s
    let (id, s₂) := scanIdentAux s₁ c.toString
    (some (createToken T.Identifier id s₂), s₂)
  else (none, s)

/-- A digit-run loop of `scanNumber`
(`while isDecimalDigit(peek) consume`), on explicit fuel (see
`skipSpacesF`): `'\x00'` is not a decimal digit, so the source loop would
break exactly where the fuel runs out. -/
def scanDigitsAuxF : Nat → LexState → String → String × LexState
  | 0, s, number => (number, s)
  | n+1, s, number =>
    if isDecimalDigit (peekNextChar s) then
      let p := getNextChar s
      scanDigitsAuxF n p.2 (number.push p.1)
    else (number, s)

/-- A digit-run loop of `scanNumber`. -/
def scanDigitsAux (s : LexState) (number : String) : String × LexState :=
  scanDigitsAuxF (s.chars.length - s.index) s number

/-- The integer-digits block of `scanNumber()` (`number = ''; if (ch !==
'.') { consume; digit run }`). At each sequencing point of the source,
the mutable `ch` equals `peekNextChar` of the current state, so the
blocks test `peekNextChar` of their incoming state. -/
def scanNumberInt (s : LexState) : String × LexState :=
  if peekNextChar s ≠ '.' then
    let p := getNextChar s
    scanDigitsAux p.2 p.1.toString
  else ("", s)

/-- The fraction block of `scanNumber()` (`if (ch === '.') { consume dot;
digit run }`). -/
def scanNumberFrac (number : String) (s : LexState) : String × LexState :=
  if peekNextChar s = '.' then
    let p := getNextChar s
    scanDigitsAux p.2 (number.push p.1)
  else (number, s)

/-- The exponent block of `scanNumber()`: after `e`/`E`, a sign or digit
is mandatory, else a lexical error naming the offending character (or
`<end>`). -/
def scanNumberExp (number : String) (s : LexState) :
    Except String String × LexState :=
  if peekNextChar s = 'e' ∨ peekNextChar s = 'E' then
    let p := getNextChar s
    let number := number.push p.1
    let ch2 := peekNextChar p.2
    if ch2 = '+' ∨ ch2 = '-' ∨ isDecimalDigit ch2 then
      let p2 := getNextChar p.2
      let q := scanDigitsAux p2.2 (number.push p2.1)
      (.ok q.1, q.2)
    else
      let chMsg := if p.2.chars.length ≤ p.2.index then "<end>"
        else "character " ++ ch2.toString
      (.error ("Unexpected " ++ chMsg ++ " after the exponent sign"), p.2)
  else (.ok number, s)

/-- `scanNumber()`: integer digits (`scanNumberInt`), optional dot and
fraction digits (`scanNumberFrac`), optional exponent (`scanNumberExp`);
throws on a bad exponent or when the collected lexeme is the lone `"."`. -/
def scanNumber (s : LexState) : Except String (Option TToken) × LexState :=
  let ch := peekNextChar s
  if ¬ isDecimalDigit ch ∧ ch ≠ '.' then (.ok none, s)
  else
    let p1 := scanNumberInt s
    let p2 := scanNumberFrac p1.1 p1.2
    let p3 := scanNumberExp p2.1 p2.2
    match p3.1 with
    | .error e => (.error e, p3.2)
    | .ok number =>
      if number = "." then
        (.error "Expecting decimal digits after the dot sign", p3.2)
      else (.ok (some (createToken T.Number number p3.2)), p3.2)

/-- `next()`: skip whitespace, then try number, operator, identifier;
`none` at end of input; a lexical error otherwise. -/
def next (s : LexState) : Except String (Option TToken) × LexState :=
  let s := skipSpaces s
  if s.chars.length ≤ s.index then (.ok none, s)
  else
    let s := { s with marker := s.index }
    match scanNumber s with
    | (.error e, s) => (.error e, s)
    | (.ok (some t), s) => (.ok (some t), s)
    | (.ok none, s) =>
      match scanOperator s with
      | (some t, s) => (.ok (some t), s)
      | (none, s) =>
        match scanIdentifier s with
        | (some t, s) => (.ok (some t), s)
        | (none, s) =>
          (.error ("Unknown token from character " ++ (peekNextChar s).toString), s)

/-- `peek()`: run `next()`, strip positions, swallow any error as
end-of-input, and restore the cursor (`index`); the `marker` mutation made
by the inner `next()` survives, as it does in the TS source. -/
def peek (s : LexState) : Option PTok × LexState :=
  let idx := s.index
  let (r, s₁) := next s
  let tok : Option PTok :=
    match r with
    | .ok (some t) => some (strip t)
    | .ok none => none
    | .error _ => none
  (tok, { s₁ with index := idx })

/-- The syntax-tree type `TNode`. The TS source represents a node as an
object with mutually exclusive optional fields, of which the parser always
sets exactly one; the corresponding Lean type is the closed sum with one
constructor per field. The `Assignment` name, built from an `Identifier`
node in the source, is stored as the identifier's string. -/
inductive TNode where
  | Expression (e : TNode)
  | Number (value : String)
  | Identifier (name : String)
  | Unary (operator : String) (expression : TNode)
  | Binary (operator : String) (left : TNode) (right : TNode)
  | Assignment (name : String) (value : TNode)
  | FunctionCall (name : String) (args : List TNode)

/-- Error text for exhausted parser fuel. Unreachable for the inputs
considered here; the fuel given by `parse` covers them. -/
def outOfFuel : String := "Internal: out of fuel"

/-- Error text for the paths where the TS source would dereference an
`undefined` token (a crash); they are unreachable because `next` returns a
token whenever the preceding `peek` saw one. -/
def internalTok : String := "Internal: token expected"

/-- `matchOp(token, op)` applied to a stripped lookahead token. -/
def matchOp (token : Option PTok) (op : String) : Bool :=
  match token with
  | none => false
  | some t => t.type == T.Operator && t.value == op

/-- `matchOp(token, op)` applied to a consumed token (the TS function is
duck-typed over both shapes). -/
def matchOpTok (token : Option TToken) (op : String) : Bool :=
  match token with
  | none => false
  | some t => t.type == T.Operator && t.value == op

/-- Result of a parsing function: a value plus the lexer state, or a
thrown `SyntaxError` message. -/
abbrev PResult (α : Type) := Except String (α × LexState)

mutual

/-- `parseArgumentList()`. The TS guard `typeof expr === 'undefined'`
never fires (`parseExpression` returns a node or throws) and has no
counterpart here; the `while` loop is the tail recursion on `,`. -/
def parseArgumentListF : Nat → LexState → PResult (List TNode)
  | 0, _ => .error outOfFuel
  | n+1, s =>
    match parseExpressionF n s with
    | .error e => .error e
    | .ok (expr, s) =>
      let (pt, s) := peek s
      if matchOp pt "," then
        match next s with
        | (.error e, _) => .error e
        | (.ok _, s) =>
          match parseArgumentListF n s with
          | .error e => .error e
          | .ok (args, s) => .ok (expr :: args, s)
      else .ok ([expr], s)

/-- `parseFunctionCall(name)`. -/
def parseFunctionCallF : Nat → String → LexState → PResult TNode
  | 0, _, _ => .error outOfFuel
  | n+1, name, s =>
    match next s with
    | (.error e, _) => .error e
    | (.ok tk, s) =>
      if ¬ matchOpTok tk "(" then
        .error ("Expecting ( in a function call \"" ++ name ++ "\"")
      else
        let (pt, s) := peek s
        let argsRes : PResult (List TNode) :=
          if ¬ matchOp pt ")" then parseArgumentListF n s else .ok ([], s)
        match argsRes with
        | .error e => .error e
        | .ok (args, s) =>
          match next s with
          | (.error e, _) => .error e
          | (.ok tk, s) =>
            if ¬ matchOpTok tk ")" then
              .error ("Expecting ) in a function call \"" ++ name ++ "\"")
            else .ok (.FunctionCall name args, s)

/-- `parsePrimary()`. -/
def parsePrimaryF : Nat → LexState → PResult TNode
  | 0, _ => .error outOfFuel
  | n+1, s =>
    let (pt, s) := peek s
    match pt with
    | none => .error "Unexpected termination of expression"
    | some ptok =>
      if ptok.type == T.Identifier then
        match next s with
        | (.error e, _) => .error e
        | (.ok (some token), s) =>
          let (pt2, s) := peek s
          if matchOp pt2 "(" then parseFunctionCallF n token.value s
          else .ok (.Identifier token.value, s)
        | (.ok none, _) => .error internalTok
      else if ptok.type == T.Number then
        match next s with
        | (.error e, _) => .error e
        | (.ok (some token), s) => .ok (.Number token.value, s)
        | (.ok none, _) => .error internalTok
      else if matchOp pt "(" then
        match next s with
        | (.error e, _) => .error e
        | (.ok _, s) =>
          match parseAssignmentF n s with
          | .error e => .error e
          | .ok (expr, s) =>
            match next s with
            | (.error e, _) => .error e
            | (.ok tk, s) =>
              if ¬ matchOpTok tk ")" then .error "Expecting )"
              else .ok (.Expression expr, s)
      else .error ("Parse error, can not process token " ++ ptok.value)

/-- `parseUnary()`. -/
def parseUnaryF : Nat → LexState → PResult TNode
  | 0, _ => .error outOfFuel
  | n+1, s =>
    let (pt, s) := peek s
    if matchOp pt "-" || matchOp pt "+" then
      match next s with
      | (.error e, _) => .error e
      | (.ok (some token), s) =>
        match parseUnaryF n s with
        | .error e => .error e
        | .ok (expr, s) => .ok (.Unary token.value expr, s)
      | (.ok none, _) => .error internalTok
    else parsePrimaryF n s

/-- `parseMultiplicative()`: the leading `parseUnary`, then the `*`/`/`
loop (`parseMulLoopF`). -/
def parseMultiplicativeF : Nat → LexState → PResult TNode
  | 0, _ => .error outOfFuel
  | n+1, s =>
    match parseUnaryF n s with
    | .error e => .error e
    | .ok (expr, s) => parseMulLoopF n expr s

/-- The `while` loop of `parseMultiplicative()`. -/
def parseMulLoopF : Nat → TNode → LexState → PResult TNode
  | 0, _, _ => .error outOfFuel
  | n+1, expr, s =>
    let (pt, s) := peek s
    if matchOp pt "*" || matchOp pt "/" then
      match next s with
      | (.error e, _) => .error e
      | (.ok (some token), s) =>
        match parseUnaryF n s with
        | .error e => .error e
        | .ok (rhs, s) => parseMulLoopF n (.Binary token.value expr rhs) s
      | (.ok none, _) => .error internalTok
    else .ok (expr, s)

/-- `parseAdditive()`: the leading `parseMultiplicative`, then the
`+`/`-` loop (`parseAddLoopF`). -/
def parseAdditiveF : Nat → LexState → PResult TNode
  | 0, _ => .error outOfFuel
  | n+1, s =>
    match parseMultiplicativeF n s with
    | .error e => .error e
    | .ok (expr, s) => parseAddLoopF n expr s

/-- The `while` loop of `parseAdditive()`. -/
def parseAddLoopF : Nat → TNode → LexState → PResult TNode
  | 0, _, _ => .error outOfFuel
  | n+1, expr, s =>
    let (pt, s) := peek s
    if matchOp pt "+" || matchOp pt "-" then
      match next s with
      | (.error e, _) => .error e
      | (.ok (some token), s) =>
        match parseMultiplicativeF n s with
        | .error e => .error e
        | .ok (rhs, s) => parseAddLoopF n (.Binary token.value expr rhs) s
      | (.ok none, _) => .error internalTok
    else .ok (expr, s)

/-- `parseAssignment()`: the `expr.Identifier` truthiness test of the TS
source is the match on the `Identifier` constructor (scanned identifiers
are never the empty string). -/
def parseAssignmentF : Nat → LexState → PResult TNode
  | 0, _ => .error outOfFuel
  | n+1, s =>
    match parseAdditiveF n s with
    | .error e => .error e
    | .ok (expr, s) =>
      match expr with
      | .Identifier name =>
        let (pt, s) := peek s
        if matchOp pt "=" then
          match next s with
          | (.error e, _) => .error e
          | (.ok _, s) =>
            match parseAssignmentF n s with
            | .error e => .error e
            | .ok (value, s) => .ok (.Assignment name value, s)
        else .ok (.Identifier name, s)
      | _ => .ok (expr, s)

/-- `parseExpression()`. -/
def parseExpressionF : Nat → LexState → PResult TNode
  | 0, _ => .error outOfFuel
  | n+1, s => parseAssignmentF n s

end

/-- `parse(expression)`: reset the lexer, parse one expression, and demand
that the whole input was consumed. The fuel is proportional to the input
length and is never exhausted on the inputs considered here. -/
def parse (expression : String) : Except String TNode :=
  let s := resetState expression
  match parseExpressionF ((expression.length + 1) * 8) s with
  | .error e => .error e
  | .ok (expr, s) =>
    match next s with
    | (.error e, _) => .error e
    | (.ok (some token), _) => .error ("Unexpected token " ++ token.value)
    | (.ok none, _) => .ok (.Expression expr)

/-- Numeric value of a digit run (most significant first). -/
def digitsVal (ds : List Char) : Nat :=
  ds.foldl (fun acc d => acc * 10 + (d.toNat - '0'.toNat)) 0

/-- `parseFloat` restricted to the number lexemes produced by `scanNumber`
(digit run, optional `.` and fraction digits, optional exponent with sign):
the exact rational value of the literal. IEEE-754 rounding is abstracted
away; every literal evaluated in the claims below is a small integer, on
which `parseFloat` is exact. -/
def parseNumberLit (str : String) : ℚ :=
  let cs := str.data
  let intPart := cs.takeWhile isDecimalDigit
  let rest := cs.dropWhile isDecimalDigit
  let fracPart :=
    match rest with
    | '.' :: r => r.takeWhile isDecimalDigit
    | _ => []
  let rest₂ :=
    match rest with
    | '.' :: r => r.dropWhile isDecimalDigit
    | _ => rest
  let expVal : Int :=
    match rest₂ with
    | 'e' :: '+' :: ds => (digitsVal ds : Int)
    | 'e' :: '-' :: ds => -(digitsVal ds : Int)
    | 'e' :: ds => (digitsVal ds : Int)
    | 'E' :: '+' :: ds => (digitsVal ds : Int)
    | 'E' :: '-' :: ds => -(digitsVal ds : Int)
    | 'E' :: ds => (digitsVal ds : Int)
    | _ => 0
  ((digitsVal intPart : ℚ) + (digitsVal fracPart : ℚ) / ((10 : ℚ) ^ fracPart.length))
    * (10 : ℚ) ^ expVal

/-- The evaluation environment of `Context()`/`Evaluator(ctx)`: named
constants, native functions, and the mutable variables record. Maps are
association lists (first match wins, like a JS object lookup); a native
function is a callable on the evaluated argument list, exactly how
`Functions[name].apply(null, args)` invokes it — no arity is declared. -/
structure Context where
  Constants : List (String × ℚ)
  Functions : List (String × (List ℚ → ℚ))
  Variables : List (String × ℚ)

/-- `context.Variables[name] = v`: overwrite the binding if the key is
present, append it otherwise. -/
def insertVar (name : String) (v : ℚ) : List (String × ℚ) → List (String × ℚ)
  | [] => [(name, v)]
  | (k, w) :: rest =>
    if k = name then (k, v) :: rest else (k, w) :: insertVar name v rest

mutual

/-- `exec(node)` of `Evaluator`: the tree walk. The mutable `context` is
threaded as state (only its `Variables` field is ever written). Thrown
`SyntaxError`s become `Except.error`. -/
def exec : TNode → Context → Except String (ℚ × Context)
  | .Expression e, ctx => exec e ctx
  | .Number value, ctx => .ok (parseNumberLit value, ctx)
  | .Binary operator left right, ctx =>
    match exec left ctx with
    | .error e => .error e
    | .ok (l, ctx) =>
      match exec right ctx with
      | .error e => .error e
      | .ok (r, ctx) =>
        if operator = "+" then .ok (l + r, ctx)
        else if operator = "-" then .ok (l - r, ctx)
        else if operator = "*" then .ok (l * r, ctx)
        else if operator = "/" then .ok (l / r, ctx)
        else .error ("Unknown operator " ++ operator)
  | .Unary operator expression, ctx =>
    match exec expression ctx with
    | .error e => .error e
    | .ok (v, ctx) =>
      if operator = "+" then .ok (v, ctx)
      else if operator = "-" then .ok (-v, ctx)
      else .error ("Unknown operator " ++ operator)
  | .Identifier name, ctx =>
    match List.lookup name ctx.Constants with
    | some v => .ok (v, ctx)
    | none =>
      match List.lookup name ctx.Variables with
      | some v => .ok (v, ctx)
      | none => .error "Unknown identifier"
  | .Assignment name value, ctx =>
    match exec value ctx with
    | .error e => .error e
    | .ok (right, ctx) =>
      .ok (right, { ctx with Variables := insertVar name right ctx.Variables })
  | .FunctionCall name args, ctx =>
    match List.lookup name ctx.Functions with
    | some f =>
      match execArgs args ctx with
      | .error e => .error e
      | .ok (vals, ctx) => .ok (f vals, ctx)
    | none => .error ("Unknown function " ++ name)
termination_by structural node => node

/-- The argument loop of the `FunctionCall` branch: evaluate left to
right, collecting the values. -/
def execArgs : List TNode → Context → Except String (List ℚ × Context)
  | [], ctx => .ok ([], ctx)
  | a :: rest, ctx =>
    match exec a ctx with
    | .error e => .error e
    | .ok (v, ctx) =>
      match execArgs rest ctx with
      | .error e => .error e
      | .ok (vs, ctx) => .ok (v :: vs, ctx)
termination_by structural args => args

end

/-- `evaluate(expr)` of `Evaluator`: parse, then `exec(tree.Expression)`.
The result pairs the value with the updated environment (the TS evaluator
mutates the captured `context` in place). The non-`Expression` case cannot
occur — `parse` always returns an `Expression` wrapper. -/
def evaluate (expr : String) (ctx : Context) : Except String (ℚ × Context) :=
  match parse expr with
  | .error e => .error e
  | .ok (.Expression inner) => exec inner ctx
  | .ok _ => .error internalTok

/-- The driver loop used by the lexer's consumers (e.g. `updateEditor`):
call `next()` repeatedly until the end-of-input marker, collecting the
tokens. `fuel` bounds the iteration count; running out is an error, so an
`ok` result means the loop genuinely reached the end marker. -/
def lexRun : Nat → LexState → Except String (List TToken)
  | 0, _ => .error outOfFuel
  | n+1, s =>
    match next s with
    | (.error e, _) => .error e
    | (.ok none, _) => .ok []
    | (.ok (some t), s') =>
      match lexRun n s' with
      | .error e => .error e
      | .ok ts => .ok (t :: ts)

/-- Sum of the token span lengths (`end - start + 1`, spans inclusive). -/
def spanSum : List TToken → Nat
  | [] => 0
  | t :: ts => (t.tokEnd + 1 - t.start) + spanSum ts

/-- Total length of the whitespace regions skipped before each token and
after the last one, reconstructed from the spans: the gap from the scan
position `i` to the next token's `start`, and finally to `len`. -/
def wsTotal (i len : Nat) : List TToken → Nat
  | [] => len - i
  | t :: ts => (t.start - i) + wsTotal (t.tokEnd + 1) len ts

/-- Position `pos` lies inside the (inclusive) span of some token. -/
def coveredBy (ts : List TToken) (pos : Nat) : Prop :=
  ∃ t ∈ ts, t.start ≤ pos ∧ pos ≤ t.tokEnd

instance (ts : List TToken) (pos : Nat) : Decidable (coveredBy ts pos) := by
  unfold coveredBy; infer_instance

/-! ## The class-based revision (`src/demo/demo.js`, second document):
an environment-aware `Parser` over a `TContext`, whose lexer and parser
throw errors that carry a column position in the message -/

/-- `LexerError` of the class-based lexer: the thrown message is
`LexerError: <message> [col=<marker - 1>]`, with `marker` read from the
lexer at throw time. JS subtraction can go below zero, so the column is
an `Int`. -/
def lexerErr (s : LexState) (message : String) : String :=
  "LexerError: " ++ message ++ " [col=" ++ toString ((s.marker : Int) - 1) ++ "]"

/-- `ParserError` of the class-based parser: the thrown message is
`ParseError: <message> [col=<marker - 1>]` (the class is named
`ParserError` but its message prefix is `ParseError:`), with `marker`
read from `parser.lexer` at throw time. -/
def parserErr (s : LexState) (message : String) : String :=
  "ParseError: " ++ message ++ " [col=" ++ toString ((s.marker : Int) - 1) ++ "]"

/-- `Lexer.next()` of the class-based lexer. Its scanning algorithm —
`skipSpaces`, then `scanNumber`, `scanOperator`, `scanIdentifier`, with
the same character classes, the same raw message at the exponent error,
the same lone-dot check and the same `Unknown token from character`
fallthrough — is character-identical to the closure-based `next` above;
the one difference is that every thrown message is wrapped in the
`LexerError` format, which appends the column `marker - 1`. The scanners
never write `marker` after `next` sets it, so the post-throw state's
`marker` is exactly the marker the `LexerError` constructor reads. -/
def demoNext (s : LexState) : Except String (Option TToken) × LexState :=
  match next s with
  | (.error e, s₁) => (.error (lexerErr s₁ e), s₁)
  | (.ok r, s₁) => (.ok r, s₁)

/-- `Lexer.peek()` of the class-based lexer: as `peek`, but through
`demoNext`. The guarded `if (token)` around the `delete` of the position
fields reaches the same `undefined` result that the closure-based lexer
reaches through its caught TypeError, and the `LexerError` wrapping of
`demoNext` is swallowed by the `catch` just as the raw message was. -/
def demoPeek (s : LexState) : Option PTok × LexState :=
  let idx := s.index
  let (r, s₁) := demoNext s
  let tok : Option PTok :=
    match r with
    | .ok (some t) => some (strip t)
    | .ok none => none
    | .error _ => none
  (tok, { s₁ with index := idx })

/-- `TContext` of the class-based revision: `Functions` maps a name to a
`TFuncDef = [Function, number]` pair of the callable and its declared
arity. -/
structure DContext where
  Constants : List (String × ℚ)
  Functions : List (String × ((List ℚ → ℚ) × Nat))
  Variables : List (String × ℚ)

mutual

/-- `Parser.parseArgumentList()` (class-based): structurally identical to
the closure-based `parseArgumentListF`, over the class-based lexer. The
constructed `Parser` carries its `TContext`; it is threaded unchanged
through the mutual recursion. -/
def demoParseArgumentListF : Nat → DContext → LexState → PResult (List TNode)
  | 0, _, _ => .error outOfFuel
  | n+1, ctx, s =>
    match demoParseExpressionF n ctx s with
    | .error e => .error e
    | .ok (expr, s) =>
      let (pt, s) := demoPeek s
      if matchOp pt "," then
        match demoNext s with
        | (.error e, _) => .error e
        | (.ok _, s) =>
          match demoParseArgumentListF n ctx s with
          | .error e => .error e
          | .ok (args, s) => .ok (expr :: args, s)
      else .ok ([expr], s)

/-- `Parser.parseFunctionCall(name)` (class-based): after consuming the
`(`, the name is looked up in the context's `Functions` table and an
unknown name is a thrown `ParserError`; after the argument list (and
before consuming the `)`), an argument count differing from the declared
arity is a thrown `ParserError`. The source phrases the unknown-name
check as `this.context.Functions && !this.context.Functions[name]` and
the arity check dereferences `this.context.Functions[name][1]`: the
`Functions` object is always truthy, a present `TFuncDef` array is always
truthy, and the arity dereference is reached only when the name was
found, so the embedding binds the lookup once at the check. `isOpToken`
of the class-based parser is `matchOp`/`matchOpTok` verbatim. -/
def demoParseFunctionCallF : Nat → DContext → String → LexState → PResult TNode
  | 0, _, _, _ => .error outOfFuel
  | n+1, ctx, name, s =>
    match demoNext s with
    | (.error e, _) => .error e
    | (.ok tk, s) =>
      if ¬ matchOpTok tk "(" then
        .error (parserErr s ("Expecting \"(\" in a function call \"" ++ name ++ "\""))
      else
        match List.lookup name ctx.Functions with
        | none => .error (parserErr s ("Unknown function \"" ++ name ++ "\""))
        | some fd =>
          let (pt, s) := demoPeek s
          let argsRes : PResult (List TNode) :=
            if ¬ matchOp pt ")" then demoParseArgumentListF n ctx s else .ok ([], s)
          match argsRes with
          | .error e => .error e
          | .ok (args, s) =>
            if args.length ≠ fd.2 then
              .error (parserErr s ("Function " ++ name ++ "() expects " ++
                toString fd.2 ++ " arg(s), found " ++ toString args.length))
            else
              match demoNext s with
              | (.error e, _) => .error e
              | (.ok tk, s) =>
                if ¬ matchOpTok tk ")" then
                  .error (parserErr s ("Missing \")\" in function \"" ++ name ++ "\""))
                else .ok (.FunctionCall name args, s)

/-- `Parser.parsePrimary()` (class-based): as the closure-based
`parsePrimaryF`, with the `ParserError` messages of this revision
(`Unexpected end of expression`, `Expecting ")"`,
`Unknown token "<value>"`). -/
def demoParsePrimaryF : Nat → DContext → LexState → PResult TNode
  | 0, _, _ => .error outOfFuel
  | n+1, ctx, s =>
    let (pt, s) := demoPeek s
    match pt with
    | none => .error (parserErr s "Unexpected end of expression")
    | some ptok =>
      if ptok.type == T.Identifier then
        match demoNext s with
        | (.error e, _) => .error e
        | (.ok (some token), s) =>
          let (pt2, s) := demoPeek s
          if matchOp pt2 "(" then demoParseFunctionCallF n ctx token.value s
          else .ok (.Identifier token.value, s)
        | (.ok none, _) => .error internalTok
      else if ptok.type == T.Number then
        match demoNext s with
        | (.error e, _) => .error e
        | (.ok (some token), s) => .ok (.Number token.value, s)
        | (.ok none, _) => .error internalTok
      else if matchOp pt "(" then
        match demoNext s with
        | (.error e, _) => .error e
        | (.ok _, s) =>
          match demoParseAssignmentF n ctx s with
          | .error e => .error e
          | .ok (expr, s) =>
            match demoNext s with
            | (.error e, _) => .error e
            | (.ok tk, s) =>
              if ¬ matchOpTok tk ")" then .error (parserErr s "Expecting \")\"")
              else .ok (.Expression expr, s)
      else .error (parserErr s ("Unknown token \"" ++ ptok.value ++ "\""))

/-- `Parser.parseUnary()` (class-based). -/
def demoParseUnaryF : Nat → DContext → LexState → PResult TNode
  | 0, _, _ => .error outOfFuel
  | n+1, ctx, s =>
    let (pt, s) := demoPeek s
    if matchOp pt "-" || matchOp pt "+" then
      match demoNext s with
      | (.error e, _) => .error e
      | (.ok (some token), s) =>
        match demoParseUnaryF n ctx s with
        | .error e => .error e
        | .ok (expr, s) => .ok (.Unary token.value expr, s)
      | (.ok none, _) => .error internalTok
    else demoParsePrimaryF n ctx s

/-- `Parser.parseMultiplicative()` (class-based): the leading
`parseUnary`, then the `*`/`/` loop (`demoParseMulLoopF`). -/
def demoParseMultiplicativeF : Nat → DContext → LexState → PResult TNode
  | 0, _, _ => .error outOfFuel
  | n+1, ctx, s =>
    match demoParseUnaryF n ctx s with
    | .error e => .error e
    | .ok (expr, s) => demoParseMulLoopF n ctx expr s

/-- The `while` loop of `Parser.parseMultiplicative()` (class-based). -/
def demoParseMulLoopF : Nat → DContext → TNode → LexState → PResult TNode
  | 0, _, _, _ => .error outOfFuel
  | n+1, ctx, expr, s =>
    let (pt, s) := demoPeek s
    if matchOp pt "*" || matchOp pt "/" then
      match demoNext s with
      | (.error e, _) => .error e
      | (.ok (some token), s) =>
        match demoParseUnaryF n ctx s with
        | .error e => .error e
        | .ok (rhs, s) => demoParseMulLoopF n ctx (.Binary token.value expr rhs) s
      | (.ok none, _) => .error internalTok
    else .ok (expr, s)

/-- `Parser.parseAdditive()` (class-based): the leading
`parseMultiplicative`, then the `+`/`-` loop (`demoParseAddLoopF`). -/
def demoParseAdditiveF : Nat → DContext → LexState → PResult TNode
  | 0, _, _ => .error outOfFuel
  | n+1, ctx, s =>
    match demoParseMultiplicativeF n ctx s with
    | .error e => .error e
    | .ok (expr, s) => demoParseAddLoopF n ctx expr s

/-- The `while` loop of `Parser.parseAdditive()` (class-based). -/
def demoParseAddLoopF : Nat → DContext → TNode → LexState → PResult TNode
  | 0, _, _, _ => .error outOfFuel
  | n+1, ctx, expr, s =>
    let (pt, s) := demoPeek s
    if matchOp pt "+" || matchOp pt "-" then
      match demoNext s with
      | (.error e, _) => .error e
      | (.ok (some token), s) =>
        match demoParseMultiplicativeF n ctx s with
        | .error e => .error e
        | .ok (rhs, s) => demoParseAddLoopF n ctx (.Binary token.value expr rhs) s
      | (.ok none, _) => .error internalTok
    else .ok (expr, s)

/-- `Parser.parseAssignment()` (class-based): the
`expr !== undefined && expr.Identifier` test is the match on the
`Identifier` constructor; the assignment node stores
`{ Identifier: expr.Identifier }` as its name, here the identifier's
string. -/
def demoParseAssignmentF : Nat → DContext → LexState → PResult TNode
  | 0, _, _ => .error outOfFuel
  | n+1, ctx, s =>
    match demoParseAdditiveF n ctx s with
    | .error e => .error e
    | .ok (expr, s) =>
      match expr with
      | .Identifier name =>
        let (pt, s) := demoPeek s
        if matchOp pt "=" then
          match demoNext s with
          | (.error e, _) => .error e
          | (.ok _, s) =>
            match demoParseAssignmentF n ctx s with
            | .error e => .error e
            | .ok (value, s) => .ok (.Assignment name value, s)
        else .ok (.Identifier name, s)
      | _ => .ok (expr, s)

/-- `Parser.parseExpression()` (class-based). -/
def demoParseExpressionF : Nat → DContext → LexState → PResult TNode
  | 0, _, _ => .error outOfFuel
  | n+1, ctx, s => demoParseAssignmentF n ctx s

end

/-- `Parser.parse(expression)` (class-based): reset the lexer, parse one
expression, and demand that the whole input was consumed — a trailing
token is the `ParserError` `Unexpected token "<value>"`. The fuel
convention is that of `parse`. -/
def demoParse (ctx : DContext) (expression : String) : Except String TNode :=
  let s := resetState expression
  match demoParseExpressionF ((expression.length + 1) * 8) ctx s with
  | .error e => .error e
  | .ok (expr, s) =>
    match demoNext s with
    | (.error e, _) => .error e
    | (.ok (some token), s) =>
      .error (parserErr s ("Unexpected token \"" ++ token.value ++ "\""))
    | (.ok none, _) => .ok (.Expression expr)



/-! ## Helper lemmas: concrete parses, assembled from per-token lexer steps -/

set_option maxHeartbeats 1000000 in
theorem parse_mulPrec : parse "1+2*3" = .ok (.Expression (.Binary "+" (.Number "1") (.Binary "*" (.Number "2") (.Number "3")))) := by
  have hs0 : resetState "1+2*3" = ⟨['1', '+', '2', '*', '3'], 0, 0⟩ := by rfl
  have hfuel : ("1+2*3".length + 1) * 8 = 48 := by rfl
  have apk0 : peek ⟨['1', '+', '2', '*', '3'], 0, 0⟩ = (some ⟨"Number", "1"⟩, ⟨['1', '+', '2', '*', '3'], 0, 0⟩) := by rfl
  have anx2 : next ⟨['1', '+', '2', '*', '3'], 0, 0⟩ = (.ok (some ⟨"Number", "1", 0, 0⟩), ⟨['1', '+', '2', '*', '3'], 1, 0⟩) := by rfl
  have apk3 : peek ⟨['1', '+', '2', '*', '3'], 1, 0⟩ = (some ⟨"Operator", "+"⟩, ⟨['1', '+', '2', '*', '3'], 1, 1⟩) := by rfl
  have apk4 : peek ⟨['1', '+', '2', '*', '3'], 1, 1⟩ = (some ⟨"Operator", "+"⟩, ⟨['1', '+', '2', '*', '3'], 1, 1⟩) := by rfl
  have anx5 : next ⟨['1', '+', '2', '*', '3'], 1, 1⟩ = (.ok (some ⟨"Operator", "+", 1, 1⟩), ⟨['1', '+', '2', '*', '3'], 2, 1⟩) := by rfl
  have apk6 : peek ⟨['1', '+', '2', '*', '3'], 2, 1⟩ = (some ⟨"Number", "2"⟩, ⟨['1', '+', '2', '*', '3'], 2, 2⟩) := by rfl
  have apk7 : peek ⟨['1', '+', '2', '*', '3'], 2, 2⟩ = (some ⟨"Number", "2"⟩, ⟨['1', '+', '2', '*', '3'], 2, 2⟩) := by rfl
  have anx8 : next ⟨['1', '+', '2', '*', '3'], 2, 2⟩ = (.ok (some ⟨"Number", "2", 2, 2⟩), ⟨['1', '+', '2', '*', '3'], 3, 2⟩) := by rfl
  have apk9 : peek ⟨['1', '+', '2', '*', '3'], 3, 2⟩ = (some ⟨"Operator", "*"⟩, ⟨['1', '+', '2', '*', '3'], 3, 3⟩) := by rfl
  have anx10 : next ⟨['1', '+', '2', '*', '3'], 3, 3⟩ = (.ok (some ⟨"Operator", "*", 3, 3⟩), ⟨['1', '+', '2', '*', '3'], 4, 3⟩) := by rfl
  have apk11 : peek ⟨['1', '+', '2', '*', '3'], 4, 3⟩ = (some ⟨"Number", "3"⟩, ⟨['1', '+', '2', '*', '3'], 4, 4⟩) := by rfl
  have apk12 : peek ⟨['1', '+', '2', '*', '3'], 4, 4⟩ = (some ⟨"Number", "3"⟩, ⟨['1', '+', '2', '*', '3'], 4, 4⟩) := by rfl
  have anx13 : next ⟨['1', '+', '2', '*', '3'], 4, 4⟩ = (.ok (some ⟨"Number", "3", 4, 4⟩), ⟨['1', '+', '2', '*', '3'], 5, 4⟩) := by rfl
  have apk14 : peek ⟨['1', '+', '2', '*', '3'], 5, 4⟩ = (none, ⟨['1', '+', '2', '*', '3'], 5, 4⟩) := by rfl
  have anx16 : next ⟨['1', '+', '2', '*', '3'], 5, 4⟩ = (.ok (none), ⟨['1', '+', '2', '*', '3'], 5, 4⟩) := by rfl
  simp [hs0, hfuel, apk0, anx2, apk3, apk4, anx5, apk6, apk7, anx8, apk9, anx10, apk11, apk12, anx13, apk14, anx16,
    parse, parseExpressionF, parseAssignmentF, parseAdditiveF, parseAddLoopF,
    parseMultiplicativeF, parseMulLoopF, parseUnaryF, parsePrimaryF, parseFunctionCallF,
    parseArgumentListF, matchOp, matchOpTok, T.Operator, T.Identifier, T.Number]

set_option maxHeartbeats 1000000 in
theorem parse_parenPrec : parse "(1+2)*3" = .ok (.Expression (.Binary "*" (.Expression (.Binary "+" (.Number "1") (.Number "2"))) (.Number "3"))) := by
  have hs0 : resetState "(1+2)*3" = ⟨['(', '1', '+', '2', ')', '*', '3'], 0, 0⟩ := by rfl
  have hfuel : ("(1+2)*3".length + 1) * 8 = 64 := by rfl
  have bpk80 : peek ⟨['(', '1', '+', '2', ')', '*', '3'], 0, 0⟩ = (some ⟨"Operator", "("⟩, ⟨['(', '1', '+', '2', ')', '*', '3'], 0, 0⟩) := by rfl
  have bnx82 : next ⟨['(', '1', '+', '2', ')', '*', '3'], 0, 0⟩ = (.ok (some ⟨"Operator", "(", 0, 0⟩), ⟨['(', '1', '+', '2', ')', '*', '3'], 1, 0⟩) := by rfl
  have bpk76 : peek ⟨['(', '1', '+', '2', ')', '*', '3'], 1, 0⟩ = (some ⟨"Number", "1"⟩, ⟨['(', '1', '+', '2', ')', '*', '3'], 1, 1⟩) := by rfl
  have bpk77 : peek ⟨['(', '1', '+', '2', ')', '*', '3'], 1, 1⟩ = (some ⟨"Number", "1"⟩, ⟨['(', '1', '+', '2', ')', '*', '3'], 1, 1⟩) := by rfl
  have bnx78 : next ⟨['(', '1', '+', '2', ')', '*', '3'], 1, 0⟩ = (.ok (some ⟨"Number", "1", 1, 1⟩), ⟨['(', '1', '+', '2', ')', '*', '3'], 2, 1⟩) := by rfl
  have bnx79 : next ⟨['(', '1', '+', '2', ')', '*', '3'], 1, 1⟩ = (.ok (some ⟨"Number", "1", 1, 1⟩), ⟨['(', '1', '+', '2', ')', '*', '3'], 2, 1⟩) := by rfl
  have bpk72 : peek ⟨['(', '1', '+', '2', ')', '*', '3'], 2, 1⟩ = (some ⟨"Operator", "+"⟩, ⟨['(', '1', '+', '2', ')', '*', '3'], 2, 2⟩) := by rfl
  have bpk73 : peek ⟨['(', '1', '+', '2', ')', '*', '3'], 2, 2⟩ = (some ⟨"Operator", "+"⟩, ⟨['(', '1', '+', '2', ')', '*', '3'], 2, 2⟩) := by rfl
  have bnx74 : next ⟨['(', '1', '+', '2', ')', '*', '3'], 2, 1⟩ = (.ok (some ⟨"Operator", "+", 2, 2⟩), ⟨['(', '1', '+', '2', ')', '*', '3'], 3, 2⟩) := by rfl
  have bnx75 : next ⟨['(', '1', '+', '2', ')', '*', '3'], 2, 2⟩ = (.ok (some ⟨"Operator", "+", 2, 2⟩), ⟨['(', '1', '+', '2', ')', '*', '3'], 3, 2⟩) := by rfl
  have bpk68 : peek ⟨['(', '1', '+', '2', ')', '*', '3'], 3, 2⟩ = (some ⟨"Number", "2"⟩, ⟨['(', '1', '+', '2', ')', '*', '3'], 3, 3⟩) := by rfl
  have bpk69 : peek ⟨['(', '1', '+', '2', ')', '*', '3'], 3, 3⟩ = (some ⟨"Number", "2"⟩, ⟨['(', '1', '+', '2', ')', '*', '3'], 3, 3⟩) := by rfl
  have bnx70 : next ⟨['(', '1', '+', '2', ')', '*', '3'], 3, 2⟩ = (.ok (some ⟨"Number", "2", 3, 3⟩), ⟨['(', '1', '+', '2', ')', '*', '3'], 4, 3⟩) := by rfl
  have bnx71 : next ⟨['(', '1', '+', '2', ')', '*', '3'], 3, 3⟩ = (.ok (some ⟨"Number", "2", 3, 3⟩), ⟨['(', '1', '+', '2', ')', '*', '3'], 4, 3⟩) := by rfl
  have bpk64 : peek ⟨['(', '1', '+', '2', ')', '*', '3'], 4, 3⟩ = (some ⟨"Operator", ")"⟩, ⟨['(', '1', '+', '2', ')', '*', '3'], 4, 4⟩) := by rfl
  have bpk65 : peek ⟨['(', '1', '+', '2', ')', '*', '3'], 4, 4⟩ = (some ⟨"Operator", ")"⟩, ⟨['(', '1', '+', '2', ')', '*', '3'], 4, 4⟩) := by rfl
  have bnx66 : next ⟨['(', '1', '+', '2', ')', '*', '3'], 4, 3⟩ = (.ok (some ⟨"Operator", ")", 4, 4⟩), ⟨['(', '1', '+', '2', ')', '*', '3'], 5, 4⟩) := by rfl
  have bnx67 : next ⟨['(', '1', '+', '2', ')', '*', '3'], 4, 4⟩ = (.ok (some ⟨"Operator", ")", 4, 4⟩), ⟨['(', '1', '+', '2', ')', '*', '3'], 5, 4⟩) := by rfl
  have bpk60 : peek ⟨['(', '1', '+', '2', ')', '*', '3'], 5, 4⟩ = (some ⟨"Operator", "*"⟩, ⟨['(', '1', '+', '2', ')', '*', '3'], 5, 5⟩) := by rfl
  have bpk61 : peek ⟨['(', '1', '+', '2', ')', '*', '3'], 5, 5⟩ = (some ⟨"Operator", "*"⟩, ⟨['(', '1', '+', '2', ')', '*', '3'], 5, 5⟩) := by rfl
  have bnx62 : next ⟨['(', '1', '+', '2', ')', '*', '3'], 5, 4⟩ = (.ok (some ⟨"Operator", "*", 5, 5⟩), ⟨['(', '1', '+', '2', ')', '*', '3'], 6, 5⟩) := by rfl
  have bnx63 : next ⟨['(', '1', '+', '2', ')', '*', '3'], 5, 5⟩ = (.ok (some ⟨"Operator", "*", 5, 5⟩), ⟨['(', '1', '+', '2', ')', '*', '3'], 6, 5⟩) := by rfl
  have bpk56 : peek ⟨['(', '1', '+', '2', ')', '*', '3'], 6, 5⟩ = (some ⟨"Number", "3"⟩, ⟨['(', '1', '+', '2', ')', '*', '3'], 6, 6⟩) := by rfl
  have bpk57 : peek ⟨['(', '1', '+', '2', ')', '*', '3'], 6, 6⟩ = (some ⟨"Number", "3"⟩, ⟨['(', '1', '+', '2', ')', '*', '3'], 6, 6⟩) := by rfl
  have bnx58 : next ⟨['(', '1', '+', '2', ')', '*', '3'], 6, 5⟩ = (.ok (some ⟨"Number", "3", 6, 6⟩), ⟨['(', '1', '+', '2', ')', '*', '3'], 7, 6⟩) := by rfl
  have bnx59 : next ⟨['(', '1', '+', '2', ')', '*', '3'], 6, 6⟩ = (.ok (some ⟨"Number", "3", 6, 6⟩), ⟨['(', '1', '+', '2', ')', '*', '3'], 7, 6⟩) := by rfl
  have bpk52 : peek ⟨['(', '1', '+', '2', ')', '*', '3'], 7, 6⟩ = (none, ⟨['(', '1', '+', '2', ')', '*', '3'], 7, 6⟩) := by rfl
  have bnx54 : next ⟨['(', '1', '+', '2', ')', '*', '3'], 7, 6⟩ = (.ok (none), ⟨['(', '1', '+', '2', ')', '*', '3'], 7, 6⟩) := by rfl
  simp [hs0, hfuel, bpk80, bnx82, bpk76, bpk77, bnx78, bnx79, bpk72, bpk73, bnx74, bnx75, bpk68, bpk69, bnx70, bnx71, bpk64, bpk65, bnx66, bnx67, bpk60, bpk61, bnx62, bnx63, bpk56, bpk57, bnx58, bnx59, bpk52, bnx54,
    parse, parseExpressionF, parseAssignmentF, parseAdditiveF, parseAddLoopF,
    parseMultiplicativeF, parseMulLoopF, parseUnaryF, parsePrimaryF, parseFunctionCallF,
    parseArgumentListF, matchOp, matchOpTok, T.Operator, T.Identifier, T.Number]

set_option maxHeartbeats 1000000 in
theorem parse_assignX : parse "x = 5" = .ok (.Expression (.Assignment "x" (.Number "5"))) := by
  have hs0 : resetState "x = 5" = ⟨['x', ' ', '=', ' ', '5'], 0, 0⟩ := by rfl
  have hfuel : ("x = 5".length + 1) * 8 = 48 := by rfl
  have cpk80 : peek ⟨['x', ' ', '=', ' ', '5'], 0, 0⟩ = (some ⟨"Identifier", "x"⟩, ⟨['x', ' ', '=', ' ', '5'], 0, 0⟩) := by rfl
  have cnx82 : next ⟨['x', ' ', '=', ' ', '5'], 0, 0⟩ = (.ok (some ⟨"Identifier", "x", 0, 0⟩), ⟨['x', ' ', '=', ' ', '5'], 1, 0⟩) := by rfl
  have cpk76 : peek ⟨['x', ' ', '=', ' ', '5'], 1, 0⟩ = (some ⟨"Operator", "="⟩, ⟨['x', ' ', '=', ' ', '5'], 1, 2⟩) := by rfl
  have cpk77 : peek ⟨['x', ' ', '=', ' ', '5'], 1, 2⟩ = (some ⟨"Operator", "="⟩, ⟨['x', ' ', '=', ' ', '5'], 1, 2⟩) := by rfl
  have cnx78 : next ⟨['x', ' ', '=', ' ', '5'], 1, 0⟩ = (.ok (some ⟨"Operator", "=", 2, 2⟩), ⟨['x', ' ', '=', ' ', '5'], 3, 2⟩) := by rfl
  have cnx79 : next ⟨['x', ' ', '=', ' ', '5'], 1, 2⟩ = (.ok (some ⟨"Operator", "=", 2, 2⟩), ⟨['x', ' ', '=', ' ', '5'], 3, 2⟩) := by rfl
  have cpk72 : peek ⟨['x', ' ', '=', ' ', '5'], 3, 2⟩ = (some ⟨"Number", "5"⟩, ⟨['x', ' ', '=', ' ', '5'], 3, 4⟩) := by rfl
  have cpk73 : peek ⟨['x', ' ', '=', ' ', '5'], 3, 4⟩ = (some ⟨"Number", "5"⟩, ⟨['x', ' ', '=', ' ', '5'], 3, 4⟩) := by rfl
  have cnx74 : next ⟨['x', ' ', '=', ' ', '5'], 3, 2⟩ = (.ok (some ⟨"Number", "5", 4, 4⟩), ⟨['x', ' ', '=', ' ', '5'], 5, 4⟩) := by rfl
  have cnx75 : next ⟨['x', ' ', '=', ' ', '5'], 3, 4⟩ = (.ok (some ⟨"Number", "5", 4, 4⟩), ⟨['x', ' ', '=', ' ', '5'], 5, 4⟩) := by rfl
  have cpk68 : peek ⟨['x', ' ', '=', ' ', '5'], 5, 4⟩ = (none, ⟨['x', ' ', '=', ' ', '5'], 5, 4⟩) := by rfl
  have cnx70 : next ⟨['x', ' ', '=', ' ', '5'], 5, 4⟩ = (.ok (none), ⟨['x', ' ', '=', ' ', '5'], 5, 4⟩) := by rfl
  simp [hs0, hfuel, cpk80, cnx82, cpk76, cpk77, cnx78, cnx79, cpk72, cpk73, cnx74, cnx75, cpk68, cnx70,
    parse, parseExpressionF, parseAssignmentF, parseAdditiveF, parseAddLoopF,
    parseMultiplicativeF, parseMulLoopF, parseUnaryF, parsePrimaryF, parseFunctionCallF,
    parseArgumentListF, matchOp, matchOpTok, T.Operator, T.Identifier, T.Number]

set_option maxHeartbeats 1000000 in
theorem parse_xPlusOne : parse "x + 1" = .ok (.Expression (.Binary "+" (.Identifier "x") (.Number "1"))) := by
  have hs0 : resetState "x + 1" = ⟨['x', ' ', '+', ' ', '1'], 0, 0⟩ := by rfl
  have hfuel : ("x + 1".length + 1) * 8 = 48 := by rfl
  have dpk80 : peek ⟨['x', ' ', '+', ' ', '1'], 0, 0⟩ = (some ⟨"Identifier", "x"⟩, ⟨['x', ' ', '+', ' ', '1'], 0, 0⟩) := by rfl
  have dnx82 : next ⟨['x', ' ', '+', ' ', '1'], 0, 0⟩ = (.ok (some ⟨"Identifier", "x", 0, 0⟩), ⟨['x', ' ', '+', ' ', '1'], 1, 0⟩) := by rfl
  have dpk76 : peek ⟨['x', ' ', '+', ' ', '1'], 1, 0⟩ = (some ⟨"Operator", "+"⟩, ⟨['x', ' ', '+', ' ', '1'], 1, 2⟩) := by rfl
  have dpk77 : peek ⟨['x', ' ', '+', ' ', '1'], 1, 2⟩ = (some ⟨"Operator", "+"⟩, ⟨['x', ' ', '+', ' ', '1'], 1, 2⟩) := by rfl
  have dnx78 : next ⟨['x', ' ', '+', ' ', '1'], 1, 0⟩ = (.ok (some ⟨"Operator", "+", 2, 2⟩), ⟨['x', ' ', '+', ' ', '1'], 3, 2⟩) := by rfl
  have dnx79 : next ⟨['x', ' ', '+', ' ', '1'], 1, 2⟩ = (.ok (some ⟨"Operator", "+", 2, 2⟩), ⟨['x', ' ', '+', ' ', '1'], 3, 2⟩) := by rfl
  have dpk72 : peek ⟨['x', ' ', '+', ' ', '1'], 3, 2⟩ = (some ⟨"Number", "1"⟩, ⟨['x', ' ', '+', ' ', '1'], 3, 4⟩) := by rfl
  have dpk73 : peek ⟨['x', ' ', '+', ' ', '1'], 3, 4⟩ = (some ⟨"Number", "1"⟩, ⟨['x', ' ', '+', ' ', '1'], 3, 4⟩) := by rfl
  have dnx74 : next ⟨['x', ' ', '+', ' ', '1'], 3, 2⟩ = (.ok (some ⟨"Number", "1", 4, 4⟩), ⟨['x', ' ', '+', ' ', '1'], 5, 4⟩) := by rfl
  have dnx75 : next ⟨['x', ' ', '+', ' ', '1'], 3, 4⟩ = (.ok (some ⟨"Number", "1", 4, 4⟩), ⟨['x', ' ', '+', ' ', '1'], 5, 4⟩) := by rfl
  have dpk68 : peek ⟨['x', ' ', '+', ' ', '1'], 5, 4⟩ = (none, ⟨['x', ' ', '+', ' ', '1'], 5, 4⟩) := by rfl
  have dnx70 : next ⟨['x', ' ', '+', ' ', '1'], 5, 4⟩ = (.ok (none), ⟨['x', ' ', '+', ' ', '1'], 5, 4⟩) := by rfl
  simp [hs0, hfuel, dpk80, dnx82, dpk76, dpk77, dnx78, dnx79, dpk72, dpk73, dnx74, dnx75, dpk68, dnx70,
    parse, parseExpressionF, parseAssignmentF, parseAdditiveF, parseAddLoopF,
    parseMultiplicativeF, parseMulLoopF, parseUnaryF, parsePrimaryF, parseFunctionCallF,
    parseArgumentListF, matchOp, matchOpTok, T.Operator, T.Identifier, T.Number]

set_option maxHeartbeats 1000000 in
theorem parse_twoSpaceThree : parse "2 3" = .error "Unexpected token 3" := by
  have hs0 : resetState "2 3" = ⟨['2', ' ', '3'], 0, 0⟩ := by rfl
  have hfuel : ("2 3".length + 1) * 8 = 32 := by rfl
  have epk80 : peek ⟨['2', ' ', '3'], 0, 0⟩ = (some ⟨"Number", "2"⟩, ⟨['2', ' ', '3'], 0, 0⟩) := by rfl
  have enx82 : next ⟨['2', ' ', '3'], 0, 0⟩ = (.ok (some ⟨"Number", "2", 0, 0⟩), ⟨['2', ' ', '3'], 1, 0⟩) := by rfl
  have epk76 : peek ⟨['2', ' ', '3'], 1, 0⟩ = (some ⟨"Number", "3"⟩, ⟨['2', ' ', '3'], 1, 2⟩) := by rfl
  have epk77 : peek ⟨['2', ' ', '3'], 1, 2⟩ = (some ⟨"Number", "3"⟩, ⟨['2', ' ', '3'], 1, 2⟩) := by rfl
  have enx78 : next ⟨['2', ' ', '3'], 1, 0⟩ = (.ok (some ⟨"Number", "3", 2, 2⟩), ⟨['2', ' ', '3'], 3, 2⟩) := by rfl
  have enx79 : next ⟨['2', ' ', '3'], 1, 2⟩ = (.ok (some ⟨"Number", "3", 2, 2⟩), ⟨['2', ' ', '3'], 3, 2⟩) := by rfl
  have epk72 : peek ⟨['2', ' ', '3'], 3, 2⟩ = (none, ⟨['2', ' ', '3'], 3, 2⟩) := by rfl
  have enx74 : next ⟨['2', ' ', '3'], 3, 2⟩ = (.ok (none), ⟨['2', ' ', '3'], 3, 2⟩) := by rfl
  simp [hs0, hfuel, epk80, enx82, epk76, epk77, enx78, enx79, epk72, enx74,
    parse, parseExpressionF, parseAssignmentF, parseAdditiveF, parseAddLoopF,
    parseMultiplicativeF, parseMulLoopF, parseUnaryF, parsePrimaryF, parseFunctionCallF,
    parseArgumentListF, matchOp, matchOpTok, T.Operator, T.Identifier, T.Number]

set_option maxHeartbeats 1000000 in
theorem parse_twoSpaceSpaceThree : parse "2  3" = .error "Unexpected token 3" := by
  have hs0 : resetState "2  3" = ⟨['2', ' ', ' ', '3'], 0, 0⟩ := by rfl
  have hfuel : ("2  3".length + 1) * 8 = 40 := by rfl
  have fpk80 : peek ⟨['2', ' ', ' ', '3'], 0, 0⟩ = (some ⟨"Number", "2"⟩, ⟨['2', ' ', ' ', '3'], 0, 0⟩) := by rfl
  have fnx82 : next ⟨['2', ' ', ' ', '3'], 0, 0⟩ = (.ok (some ⟨"Number", "2", 0, 0⟩), ⟨['2', ' ', ' ', '3'], 1, 0⟩) := by rfl
  have fpk76 : peek ⟨['2', ' ', ' ', '3'], 1, 0⟩ = (some ⟨"Number", "3"⟩, ⟨['2', ' ', ' ', '3'], 1, 3⟩) := by rfl
  have fpk77 : peek ⟨['2', ' ', ' ', '3'], 1, 3⟩ = (some ⟨"Number", "3"⟩, ⟨['2', ' ', ' ', '3'], 1, 3⟩) := by rfl
  have fnx78 : next ⟨['2', ' ', ' ', '3'], 1, 0⟩ = (.ok (some ⟨"Number", "3", 3, 3⟩), ⟨['2', ' ', ' ', '3'], 4, 3⟩) := by rfl
  have fnx79 : next ⟨['2', ' ', ' ', '3'], 1, 3⟩ = (.ok (some ⟨"Number", "3", 3, 3⟩), ⟨['2', ' ', ' ', '3'], 4, 3⟩) := by rfl
  have fpk72 : peek ⟨['2', ' ', ' ', '3'], 4, 3⟩ = (none, ⟨['2', ' ', ' ', '3'], 4, 3⟩) := by rfl
  have fnx74 : next ⟨['2', ' ', ' ', '3'], 4, 3⟩ = (.ok (none), ⟨['2', ' ', ' ', '3'], 4, 3⟩) := by rfl
  simp [hs0, hfuel, fpk80, fnx82, fpk76, fpk77, fnx78, fnx79, fpk72, fnx74,
    parse, parseExpressionF, parseAssignmentF, parseAdditiveF, parseAddLoopF,
    parseMultiplicativeF, parseMulLoopF, parseUnaryF, parsePrimaryF, parseFunctionCallF,
    parseArgumentListF, matchOp, matchOpTok, T.Operator, T.Identifier, T.Number]

set_option maxHeartbeats 1000000 in
theorem parse_fooOne : parse "foo(1)" = .ok (.Expression (.FunctionCall "foo" [.Number "1"])) := by
  have hs0 : resetState "foo(1)" = ⟨['f', 'o', 'o', '(', '1', ')'], 0, 0⟩ := by rfl
  have hfuel : ("foo(1)".length + 1) * 8 = 56 := by rfl
  have gpk80 : peek ⟨['f', 'o', 'o', '(', '1', ')'], 0, 0⟩ = (some ⟨"Identifier", "foo"⟩, ⟨['f', 'o', 'o', '(', '1', ')'], 0, 0⟩) := by rfl
  have gnx82 : next ⟨['f', 'o', 'o', '(', '1', ')'], 0, 0⟩ = (.ok (some ⟨"Identifier", "foo", 0, 2⟩), ⟨['f', 'o', 'o', '(', '1', ')'], 3, 0⟩) := by rfl
  have gpk76 : peek ⟨['f', 'o', 'o', '(', '1', ')'], 3, 0⟩ = (some ⟨"Operator", "("⟩, ⟨['f', 'o', 'o', '(', '1', ')'], 3, 3⟩) := by rfl
  have gpk77 : peek ⟨['f', 'o', 'o', '(', '1', ')'], 3, 3⟩ = (some ⟨"Operator", "("⟩, ⟨['f', 'o', 'o', '(', '1', ')'], 3, 3⟩) := by rfl
  have gnx78 : next ⟨['f', 'o', 'o', '(', '1', ')'], 3, 0⟩ = (.ok (some ⟨"Operator", "(", 3, 3⟩), ⟨['f', 'o', 'o', '(', '1', ')'], 4, 3⟩) := by rfl
  have gnx79 : next ⟨['f', 'o', 'o', '(', '1', ')'], 3, 3⟩ = (.ok (some ⟨"Operator", "(", 3, 3⟩), ⟨['f', 'o', 'o', '(', '1', ')'], 4, 3⟩) := by rfl
  have gpk72 : peek ⟨['f', 'o', 'o', '(', '1', ')'], 4, 3⟩ = (some ⟨"Number", "1"⟩, ⟨['f', 'o', 'o', '(', '1', ')'], 4, 4⟩) := by rfl
  have gpk73 : peek ⟨['f', 'o', 'o', '(', '1', ')'], 4, 4⟩ = (some ⟨"Number", "1"⟩, ⟨['f', 'o', 'o', '(', '1', ')'], 4, 4⟩) := by rfl
  have gnx74 : next ⟨['f', 'o', 'o', '(', '1', ')'], 4, 3⟩ = (.ok (some ⟨"Number", "1", 4, 4⟩), ⟨['f', 'o', 'o', '(', '1', ')'], 5, 4⟩) := by rfl
  have gnx75 : next ⟨['f', 'o', 'o', '(', '1', ')'], 4, 4⟩ = (.ok (some ⟨"Number", "1", 4, 4⟩), ⟨['f', 'o', 'o', '(', '1', ')'], 5, 4⟩) := by rfl
  have gpk68 : peek ⟨['f', 'o', 'o', '(', '1', ')'], 5, 4⟩ = (some ⟨"Operator", ")"⟩, ⟨['f', 'o', 'o', '(', '1', ')'], 5, 5⟩) := by rfl
  have gpk69 : peek ⟨['f', 'o', 'o', '(', '1', ')'], 5, 5⟩ = (some ⟨"Operator", ")"⟩, ⟨['f', 'o', 'o', '(', '1', ')'], 5, 5⟩) := by rfl
  have gnx70 : next ⟨['f', 'o', 'o', '(', '1', ')'], 5, 4⟩ = (.ok (some ⟨"Operator", ")", 5, 5⟩), ⟨['f', 'o', 'o', '(', '1', ')'], 6, 5⟩) := by rfl
  have gnx71 : next ⟨['f', 'o', 'o', '(', '1', ')'], 5, 5⟩ = (.ok (some ⟨"Operator", ")", 5, 5⟩), ⟨['f', 'o', 'o', '(', '1', ')'], 6, 5⟩) := by rfl
  have gpk64 : peek ⟨['f', 'o', 'o', '(', '1', ')'], 6, 5⟩ = (none, ⟨['f', 'o', 'o', '(', '1', ')'], 6, 5⟩) := by rfl
  have gnx66 : next ⟨['f', 'o', 'o', '(', '1', ')'], 6, 5⟩ = (.ok (none), ⟨['f', 'o', 'o', '(', '1', ')'], 6, 5⟩) := by rfl
  simp [hs0, hfuel, gpk80, gnx82, gpk76, gpk77, gnx78, gnx79, gpk72, gpk73, gnx74, gnx75, gpk68, gpk69, gnx70, gnx71, gpk64, gnx66,
    parse, parseExpressionF, parseAssignmentF, parseAdditiveF, parseAddLoopF,
    parseMultiplicativeF, parseMulLoopF, parseUnaryF, parsePrimaryF, parseFunctionCallF,
    parseArgumentListF, matchOp, matchOpTok, T.Operator, T.Identifier, T.Number]

set_option maxHeartbeats 1000000 in
theorem parse_fooPlusBar : parse "foo(1)+bar(1)" =
    .ok (.Expression (.Binary "+" (.FunctionCall "foo" [.Number "1"])
      (.FunctionCall "bar" [.Number "1"]))) := by
  have hs0 : resetState "foo(1)+bar(1)" = ⟨['f', 'o', 'o', '(', '1', ')', '+', 'b', 'a', 'r', '(', '1', ')'], 0, 0⟩ := by rfl
  have hfuel : ("foo(1)+bar(1)".length + 1) * 8 = 112 := by rfl
  have hpk80 : peek ⟨['f', 'o', 'o', '(', '1', ')', '+', 'b', 'a', 'r', '(', '1', ')'], 0, 0⟩ = (some ⟨"Identifier", "foo"⟩, ⟨['f', 'o', 'o', '(', '1', ')', '+', 'b', 'a', 'r', '(', '1', ')'], 0, 0⟩) := by rfl
  have hnx82 : next ⟨['f', 'o', 'o', '(', '1', ')', '+', 'b', 'a', 'r', '(', '1', ')'], 0, 0⟩ = (.ok (some ⟨"Identifier", "foo", 0, 2⟩), ⟨['f', 'o', 'o', '(', '1', ')', '+', 'b', 'a', 'r', '(', '1', ')'], 3, 0⟩) := by rfl
  have hpk76 : peek ⟨['f', 'o', 'o', '(', '1', ')', '+', 'b', 'a', 'r', '(', '1', ')'], 3, 0⟩ = (some ⟨"Operator", "("⟩, ⟨['f', 'o', 'o', '(', '1', ')', '+', 'b', 'a', 'r', '(', '1', ')'], 3, 3⟩) := by rfl
  have hpk77 : peek ⟨['f', 'o', 'o', '(', '1', ')', '+', 'b', 'a', 'r', '(', '1', ')'], 3, 3⟩ = (some ⟨"Operator", "("⟩, ⟨['f', 'o', 'o', '(', '1', ')', '+', 'b', 'a', 'r', '(', '1', ')'], 3, 3⟩) := by rfl
  have hnx78 : next ⟨['f', 'o', 'o', '(', '1', ')', '+', 'b', 'a', 'r', '(', '1', ')'], 3, 0⟩ = (.ok (some ⟨"Operator", "(", 3, 3⟩), ⟨['f', 'o', 'o', '(', '1', ')', '+', 'b', 'a', 'r', '(', '1', ')'], 4, 3⟩) := by rfl
  have hnx79 : next ⟨['f', 'o', 'o', '(', '1', ')', '+', 'b', 'a', 'r', '(', '1', ')'], 3, 3⟩ = (.ok (some ⟨"Operator", "(", 3, 3⟩), ⟨['f', 'o', 'o', '(', '1', ')', '+', 'b', 'a', 'r', '(', '1', ')'], 4, 3⟩) := by rfl
  have hpk72 : peek ⟨['f', 'o', 'o', '(', '1', ')', '+', 'b', 'a', 'r', '(', '1', ')'], 4, 3⟩ = (some ⟨"Number", "1"⟩, ⟨['f', 'o', 'o', '(', '1', ')', '+', 'b', 'a', 'r', '(', '1', ')'], 4, 4⟩) := by rfl
  have hpk73 : peek ⟨['f', 'o', 'o', '(', '1', ')', '+', 'b', 'a', 'r', '(', '1', ')'], 4, 4⟩ = (some ⟨"Number", "1"⟩, ⟨['f', 'o', 'o', '(', '1', ')', '+', 'b', 'a', 'r', '(', '1', ')'], 4, 4⟩) := by rfl
  have hnx74 : next ⟨['f', 'o', 'o', '(', '1', ')', '+', 'b', 'a', 'r', '(', '1', ')'], 4, 3⟩ = (.ok (some ⟨"Number", "1", 4, 4⟩), ⟨['f', 'o', 'o', '(', '1', ')', '+', 'b', 'a', 'r', '(', '1', ')'], 5, 4⟩) := by rfl
  have hnx75 : next ⟨['f', 'o', 'o', '(', '1', ')', '+', 'b', 'a', 'r', '(', '1', ')'], 4, 4⟩ = (.ok (some ⟨"Number", "1", 4, 4⟩), ⟨['f', 'o', 'o', '(', '1', ')', '+', 'b', 'a', 'r', '(', '1', ')'], 5, 4⟩) := by rfl
  have hpk68 : peek ⟨['f', 'o', 'o', '(', '1', ')', '+', 'b', 'a', 'r', '(', '1', ')'], 5, 4⟩ = (some ⟨"Operator", ")"⟩, ⟨['f', 'o', 'o', '(', '1', ')', '+', 'b', 'a', 'r', '(', '1', ')'], 5, 5⟩) := by rfl
  have hpk69 : peek ⟨['f', 'o', 'o', '(', '1', ')', '+', 'b', 'a', 'r', '(', '1', ')'], 5, 5⟩ = (some ⟨"Operator", ")"⟩, ⟨['f', 'o', 'o', '(', '1', ')', '+', 'b', 'a', 'r', '(', '1', ')'], 5, 5⟩) := by rfl
  have hnx70 : next ⟨['f', 'o', 'o', '(', '1', ')', '+', 'b', 'a', 'r', '(', '1', ')'], 5, 4⟩ = (.ok (some ⟨"Operator", ")", 5, 5⟩), ⟨['f', 'o', 'o', '(', '1', ')', '+', 'b', 'a', 'r', '(', '1', ')'], 6, 5⟩) := by rfl
  have hnx71 : next ⟨['f', 'o', 'o', '(', '1', ')', '+', 'b', 'a', 'r', '(', '1', ')'], 5, 5⟩ = (.ok (some ⟨"Operator", ")", 5, 5⟩), ⟨['f', 'o', 'o', '(', '1', ')', '+', 'b', 'a', 'r', '(', '1', ')'], 6, 5⟩) := by rfl
  have hpk64 : peek ⟨['f', 'o', 'o', '(', '1', ')', '+', 'b', 'a', 'r', '(', '1', ')'], 6, 5⟩ = (some ⟨"Operator", "+"⟩, ⟨['f', 'o', 'o', '(', '1', ')', '+', 'b', 'a', 'r', '(', '1', ')'], 6, 6⟩) := by rfl
  have hpk65 : peek ⟨['f', 'o', 'o', '(', '1', ')', '+', 'b', 'a', 'r', '(', '1', ')'], 6, 6⟩ = (some ⟨"Operator", "+"⟩, ⟨['f', 'o', 'o', '(', '1', ')', '+', 'b', 'a', 'r', '(', '1', ')'], 6, 6⟩) := by rfl
  have hnx66 : next ⟨['f', 'o', 'o', '(', '1', ')', '+', 'b', 'a', 'r', '(', '1', ')'], 6, 5⟩ = (.ok (some ⟨"Operator", "+", 6, 6⟩), ⟨['f', 'o', 'o', '(', '1', ')', '+', 'b', 'a', 'r', '(', '1', ')'], 7, 6⟩) := by rfl
  have hnx67 : next ⟨['f', 'o', 'o', '(', '1', ')', '+', 'b', 'a', 'r', '(', '1', ')'], 6, 6⟩ = (.ok (some ⟨"Operator", "+", 6, 6⟩), ⟨['f', 'o', 'o', '(', '1', ')', '+', 'b', 'a', 'r', '(', '1', ')'], 7, 6⟩) := by rfl
  have hpk60 : peek ⟨['f', 'o', 'o', '(', '1', ')', '+', 'b', 'a', 'r', '(', '1', ')'], 7, 6⟩ = (some ⟨"Identifier", "bar"⟩, ⟨['f', 'o', 'o', '(', '1', ')', '+', 'b', 'a', 'r', '(', '1', ')'], 7, 7⟩) := by rfl
  have hpk61 : peek ⟨['f', 'o', 'o', '(', '1', ')', '+', 'b', 'a', 'r', '(', '1', ')'], 7, 7⟩ = (some ⟨"Identifier", "bar"⟩, ⟨['f', 'o', 'o', '(', '1', ')', '+', 'b', 'a', 'r', '(', '1', ')'], 7, 7⟩) := by rfl
  have hnx62 : next ⟨['f', 'o', 'o', '(', '1', ')', '+', 'b', 'a', 'r', '(', '1', ')'], 7, 6⟩ = (.ok (some ⟨"Identifier", "bar", 7, 9⟩), ⟨['f', 'o', 'o', '(', '1', ')', '+', 'b', 'a', 'r', '(', '1', ')'], 10, 7⟩) := by rfl
  have hnx63 : next ⟨['f', 'o', 'o', '(', '1', ')', '+', 'b', 'a', 'r', '(', '1', ')'], 7, 7⟩ = (.ok (some ⟨"Identifier", "bar", 7, 9⟩), ⟨['f', 'o', 'o', '(', '1', ')', '+', 'b', 'a', 'r', '(', '1', ')'], 10, 7⟩) := by rfl
  have hpk56 : peek ⟨['f', 'o', 'o', '(', '1', ')', '+', 'b', 'a', 'r', '(', '1', ')'], 10, 7⟩ = (some ⟨"Operator", "("⟩, ⟨['f', 'o', 'o', '(', '1', ')', '+', 'b', 'a', 'r', '(', '1', ')'], 10, 10⟩) := by rfl
  have hpk57 : peek ⟨['f', 'o', 'o', '(', '1', ')', '+', 'b', 'a', 'r', '(', '1', ')'], 10, 10⟩ = (some ⟨"Operator", "("⟩, ⟨['f', 'o', 'o', '(', '1', ')', '+', 'b', 'a', 'r', '(', '1', ')'], 10, 10⟩) := by rfl
  have hnx58 : next ⟨['f', 'o', 'o', '(', '1', ')', '+', 'b', 'a', 'r', '(', '1', ')'], 10, 7⟩ = (.ok (some ⟨"Operator", "(", 10, 10⟩), ⟨['f', 'o', 'o', '(', '1', ')', '+', 'b', 'a', 'r', '(', '1', ')'], 11, 10⟩) := by rfl
  have hnx59 : next ⟨['f', 'o', 'o', '(', '1', ')', '+', 'b', 'a', 'r', '(', '1', ')'], 10, 10⟩ = (.ok (some ⟨"Operator", "(", 10, 10⟩), ⟨['f', 'o', 'o', '(', '1', ')', '+', 'b', 'a', 'r', '(', '1', ')'], 11, 10⟩) := by rfl
  have hpk52 : peek ⟨['f', 'o', 'o', '(', '1', ')', '+', 'b', 'a', 'r', '(', '1', ')'], 11, 10⟩ = (some ⟨"Number", "1"⟩, ⟨['f', 'o', 'o', '(', '1', ')', '+', 'b', 'a', 'r', '(', '1', ')'], 11, 11⟩) := by rfl
  have hpk53 : peek ⟨['f', 'o', 'o', '(', '1', ')', '+', 'b', 'a', 'r', '(', '1', ')'], 11, 11⟩ = (some ⟨"Number", "1"⟩, ⟨['f', 'o', 'o', '(', '1', ')', '+', 'b', 'a', 'r', '(', '1', ')'], 11, 11⟩) := by rfl
  have hnx54 : next ⟨['f', 'o', 'o', '(', '1', ')', '+', 'b', 'a', 'r', '(', '1', ')'], 11, 10⟩ = (.ok (some ⟨"Number", "1", 11, 11⟩), ⟨['f', 'o', 'o', '(', '1', ')', '+', 'b', 'a', 'r', '(', '1', ')'], 12, 11⟩) := by rfl
  have hnx55 : next ⟨['f', 'o', 'o', '(', '1', ')', '+', 'b', 'a', 'r', '(', '1', ')'], 11, 11⟩ = (.ok (some ⟨"Number", "1", 11, 11⟩), ⟨['f', 'o', 'o', '(', '1', ')', '+', 'b', 'a', 'r', '(', '1', ')'], 12, 11⟩) := by rfl
  have hpk48 : peek ⟨['f', 'o', 'o', '(', '1', ')', '+', 'b', 'a', 'r', '(', '1', ')'], 12, 11⟩ = (some ⟨"Operator", ")"⟩, ⟨['f', 'o', 'o', '(', '1', ')', '+', 'b', 'a', 'r', '(', '1', ')'], 12, 12⟩) := by rfl
  have hpk49 : peek ⟨['f', 'o', 'o', '(', '1', ')', '+', 'b', 'a', 'r', '(', '1', ')'], 12, 12⟩ = (some ⟨"Operator", ")"⟩, ⟨['f', 'o', 'o', '(', '1', ')', '+', 'b', 'a', 'r', '(', '1', ')'], 12, 12⟩) := by rfl
  have hnx50 : next ⟨['f', 'o', 'o', '(', '1', ')', '+', 'b', 'a', 'r', '(', '1', ')'], 12, 11⟩ = (.ok (some ⟨"Operator", ")", 12, 12⟩), ⟨['f', 'o', 'o', '(', '1', ')', '+', 'b', 'a', 'r', '(', '1', ')'], 13, 12⟩) := by rfl
  have hnx51 : next ⟨['f', 'o', 'o', '(', '1', ')', '+', 'b', 'a', 'r', '(', '1', ')'], 12, 12⟩ = (.ok (some ⟨"Operator", ")", 12, 12⟩), ⟨['f', 'o', 'o', '(', '1', ')', '+', 'b', 'a', 'r', '(', '1', ')'], 13, 12⟩) := by rfl
  have hpk44 : peek ⟨['f', 'o', 'o', '(', '1', ')', '+', 'b', 'a', 'r', '(', '1', ')'], 13, 12⟩ = (none, ⟨['f', 'o', 'o', '(', '1', ')', '+', 'b', 'a', 'r', '(', '1', ')'], 13, 12⟩) := by rfl
  have hnx46 : next ⟨['f', 'o', 'o', '(', '1', ')', '+', 'b', 'a', 'r', '(', '1', ')'], 13, 12⟩ = (.ok (none), ⟨['f', 'o', 'o', '(', '1', ')', '+', 'b', 'a', 'r', '(', '1', ')'], 13, 12⟩) := by rfl
  simp [hs0, hfuel, hpk80, hnx82, hpk76, hpk77, hnx78, hnx79, hpk72, hpk73, hnx74, hnx75, hpk68, hpk69, hnx70, hnx71, hpk64, hpk65, hnx66, hnx67, hpk60, hpk61, hnx62, hnx63, hpk56, hpk57, hnx58, hnx59, hpk52, hpk53, hnx54, hnx55, hpk48, hpk49, hnx50, hnx51, hpk44, hnx46,
    parse, parseExpressionF, parseAssignmentF, parseAdditiveF, parseAddLoopF,
    parseMultiplicativeF, parseMulLoopF, parseUnaryF, parsePrimaryF, parseFunctionCallF,
    parseArgumentListF, matchOp, matchOpTok, T.Operator, T.Identifier, T.Number]

/-! ## Helper lemmas: concrete number literals -/

theorem parseNumberLit_one : parseNumberLit "1" = 1 := by
  simp [parseNumberLit, digitsVal, isDecimalDigit]

theorem parseNumberLit_two : parseNumberLit "2" = 2 := by
  simp [parseNumberLit, digitsVal, isDecimalDigit]

theorem parseNumberLit_three : parseNumberLit "3" = 3 := by
  simp [parseNumberLit, digitsVal, isDecimalDigit]

theorem parseNumberLit_five : parseNumberLit "5" = 5 := by
  simp [parseNumberLit, digitsVal, isDecimalDigit]

/-! ## Helper lemmas: environment operations -/

/-- After `Variables[name] = v`, looking `name` up yields `v`. -/
theorem lookup_insertVar_self (name : String) (v : ℚ) :
    ∀ l : List (String × ℚ), List.lookup name (insertVar name v l) = some v := by
  intro l
  induction l with
  | nil => simp [insertVar, List.lookup]
  | cons p rest ih =>
    obtain ⟨k, w⟩ := p
    by_cases hk : k = name
    · subst hk
      simp [insertVar, List.lookup]
    · have hb : (name == k) = false := by
        simp [Ne.symm hk]
      simp [insertVar, hk, List.lookup, ih, hb]

/-- `execArgs` returns one value per syntactic argument. -/
theorem execArgs_length :
    ∀ (args : List TNode) (ctx : Context) (vals : List ℚ) (ctx' : Context),
      execArgs args ctx = .ok (vals, ctx') → vals.length = args.length := by
  intro args
  induction args with
  | nil =>
    intro ctx vals ctx' h
    simp [execArgs] at h
    simp [h.1]
  | cons a rest ih =>
    intro ctx vals ctx' h
    rw [execArgs] at h
    cases ha : exec a ctx with
    | error e => rw [ha] at h; exact absurd h (by simp)
    | ok p =>
      obtain ⟨v, ctx₁⟩ := p
      rw [ha] at h
      simp only [] at h
      cases hr : execArgs rest ctx₁ with
      | error e => rw [hr] at h; exact absurd h (by simp)
      | ok q =>
        obtain ⟨vs, ctx₂⟩ := q
        rw [hr] at h
        simp at h
        obtain ⟨hv, _⟩ := h
        simp [← hv, ih ctx₁ vs ctx₂ hr]

mutual

/-- Evaluation only ever writes `Variables`: the `Constants` and
`Functions` tables of the environment are preserved. -/
theorem exec_preserves (t : TNode) :
    ∀ (ctx : Context) (v : ℚ) (ctx' : Context), exec t ctx = .ok (v, ctx') →
      ctx'.Constants = ctx.Constants ∧ ctx'.Functions = ctx.Functions := by
  intro ctx v ctx' h
  match t with
  | .Expression e =>
    rw [exec] at h
    exact exec_preserves e ctx v ctx' h
  | .Number value =>
    rw [exec] at h
    simp at h
    simp [← h.2]
  | .Binary op l r =>
    rw [exec] at h
    cases hl : exec l ctx with
    | error e => rw [hl] at h; exact absurd h (by simp)
    | ok p =>
      obtain ⟨lv, ctx₁⟩ := p
      rw [hl] at h
      simp only [] at h
      cases hr : exec r ctx₁ with
      | error e => rw [hr] at h; exact absurd h (by simp)
      | ok q =>
        obtain ⟨rv, ctx₂⟩ := q
        rw [hr] at h
        have h₁ := exec_preserves l ctx lv ctx₁ hl
        have h₂ := exec_preserves r ctx₁ rv ctx₂ hr
        have hctx : ctx' = ctx₂ := by
          by_cases c1 : op = "+"
          · simp [c1] at h; simp [← h.2]
          · by_cases c2 : op = "-"
            · simp [c1, c2] at h; simp [← h.2]
            · by_cases c3 : op = "*"
              · simp [c1, c2, c3] at h; simp [← h.2]
              · by_cases c4 : op = "/"
                · simp [c1, c2, c3, c4] at h; simp [← h.2]
                · simp [c1, c2, c3, c4] at h
        rw [hctx]
        exact ⟨h₂.1.trans h₁.1, h₂.2.trans h₁.2⟩
  | .Unary op e =>
    rw [exec] at h
    cases he : exec e ctx with
    | error err => rw [he] at h; exact absurd h (by simp)
    | ok p =>
      obtain ⟨ev, ctx₁⟩ := p
      rw [he] at h
      have h₁ := exec_preserves e ctx ev ctx₁ he
      have hctx : ctx' = ctx₁ := by
        by_cases c1 : op = "+"
        · simp [c1] at h; simp [← h.2]
        · by_cases c2 : op = "-"
          · simp [c1, c2] at h; simp [← h.2]
          · simp [c1, c2] at h
      rw [hctx]
      exact h₁
  | .Identifier name =>
    rw [exec] at h
    cases hc : List.lookup name ctx.Constants with
    | some c => rw [hc] at h; simp at h; simp [← h.2]
    | none =>
      rw [hc] at h
      cases hv : List.lookup name ctx.Variables with
      | some w => rw [hv] at h; simp at h; simp [← h.2]
      | none => rw [hv] at h; exact absurd h (by simp)
  | .Assignment name value =>
    rw [exec] at h
    cases hval : exec value ctx with
    | error err => rw [hval] at h; exact absurd h (by simp)
    | ok p =>
      obtain ⟨rv, ctx₁⟩ := p
      rw [hval] at h
      simp at h
      have h₁ := exec_preserves value ctx rv ctx₁ hval
      simp [← h.2]
      exact h₁
  | .FunctionCall name args =>
    rw [exec] at h
    cases hf : List.lookup name ctx.Functions with
    | none => rw [hf] at h; exact absurd h (by simp)
    | some f =>
      rw [hf] at h
      simp only [] at h
      cases ha : execArgs args ctx with
      | error err => rw [ha] at h; exact absurd h (by simp)
      | ok p =>
        obtain ⟨vals, ctx₁⟩ := p
        rw [ha] at h
        simp at h
        have h₁ := execArgs_preserves args ctx vals ctx₁ ha
        simp [← h.2]
        exact h₁

/-- As `exec_preserves`, for the argument loop. -/
theorem execArgs_preserves (args : List TNode) :
    ∀ (ctx : Context) (vals : List ℚ) (ctx' : Context),
      execArgs args ctx = .ok (vals, ctx') →
      ctx'.Constants = ctx.Constants ∧ ctx'.Functions = ctx.Functions := by
  intro ctx vals ctx' h
  match args with
  | [] =>
    rw [execArgs] at h
    simp at h
    simp [← h.2]
  | a :: rest =>
    rw [execArgs] at h
    cases ha : exec a ctx with
    | error e => rw [ha] at h; exact absurd h (by simp)
    | ok p =>
      obtain ⟨v, ctx₁⟩ := p
      rw [ha] at h
      simp only [] at h
      cases hr : execArgs rest ctx₁ with
      | error e => rw [hr] at h; exact absurd h (by simp)
      | ok q =>
        obtain ⟨vs, ctx₂⟩ := q
        rw [hr] at h
        simp at h
        have h₁ := exec_preserves a ctx v ctx₁ ha
        have h₂ := execArgs_preserves rest ctx₁ vs ctx₂ hr
        simp [← h.2]
        exact ⟨h₂.1.trans h₁.1, h₂.2.trans h₁.2⟩

end

/-! ## Helper lemmas: whitespace-only input -/

/-- On input that is whitespace from the cursor to the end,
`skipSpacesF` (with sufficient fuel) runs the cursor to the end. -/
theorem skipSpacesF_ws :
    ∀ (n : Nat) (s : LexState),
      (∀ i, s.index ≤ i → i < s.chars.length →
        isWhiteSpace (s.chars.getD i '\x00') = true) →
      s.index ≤ s.chars.length →
      s.chars.length ≤ s.index + n →
      skipSpacesF n s = { s with index := s.chars.length } := by
  intro n
  induction n with
  | zero =>
    intro s hws hle hfuel
    have : s.chars.length = s.index := by omega
    rw [skipSpacesF]
    simp [this]
  | succ n ih =>
    intro s hws hle hfuel
    rw [skipSpacesF]
    by_cases hlt : s.index < s.chars.length
    · rw [if_pos hlt, if_pos (by simpa [peekNextChar] using hws s.index le_rfl hlt)]
      have ih' := ih { s with index := s.index + 1 }
        (fun i hi hilen =>
          hws i (by have hi' : s.index + 1 ≤ i := hi; omega) hilen)
        (by show s.index + 1 ≤ s.chars.length; omega)
        (by show s.chars.length ≤ s.index + 1 + n; omega)
      simpa using ih'
    · rw [if_neg hlt]
      have : s.chars.length = s.index := by omega
      simp [this]

/-- On whitespace-only remaining input, `next` returns the end-of-input
marker with the cursor at the end. -/
theorem next_ws (s : LexState)
    (hws : ∀ i, s.index ≤ i → i < s.chars.length →
      isWhiteSpace (s.chars.getD i '\x00') = true)
    (hle : s.index ≤ s.chars.length) :
    next s = (.ok none, { s with index := s.chars.length }) := by
  have hskip : skipSpaces s = { s with index := s.chars.length } := by
    rw [skipSpaces]
    exact skipSpacesF_ws _ s hws hle (by omega)
  rw [next, hskip]
  simp

/-- On whitespace-only remaining input, `peek` reports end of input and
leaves the state unchanged. -/
theorem peek_ws (s : LexState)
    (hws : ∀ i, s.index ≤ i → i < s.chars.length →
      isWhiteSpace (s.chars.getD i '\x00') = true)
    (hle : s.index ≤ s.chars.length) :
    peek s = (none, s) := by
  rw [peek, next_ws s hws hle]

/-- A state whose `peek` reports end of input makes the `Primary` parser —
and with it the whole grammar chain — throw
"Unexpected termination of expression". -/
theorem parseExpressionF_empty (k : Nat) (s : LexState)
    (hpeek : peek s = (none, s)) :
    parseExpressionF (k+6) s = .error "Unexpected termination of expression" := by
  have hprim : parsePrimaryF (k+1) s = .error "Unexpected termination of expression" := by
    rw [parsePrimaryF, hpeek]
  have hun : parseUnaryF (k+2) s = .error "Unexpected termination of expression" := by
    rw [parseUnaryF, hpeek]
    simpa [matchOp] using hprim
  have hmul : parseMultiplicativeF (k+3) s = .error "Unexpected termination of expression" := by
    rw [parseMultiplicativeF, hun]
  have hadd : parseAdditiveF (k+4) s = .error "Unexpected termination of expression" := by
    rw [parseAdditiveF, hmul]
  have hassign : parseAssignmentF (k+5) s = .error "Unexpected termination of expression" := by
    rw [parseAssignmentF, hadd]
  rw [parseExpressionF]
  exact hassign

/-! ## Helper lemmas: the lexer preserves `chars`, and `next` ignores the
incoming `marker` -/

theorem skipSpacesF_chars (n : Nat) :
    ∀ s : LexState, (skipSpacesF n s).chars = s.chars ∧
      (skipSpacesF n s).marker = s.marker := by
  induction n with
  | zero => intro s; rw [skipSpacesF]; exact ⟨rfl, rfl⟩
  | succ n ih =>
    intro s
    rw [skipSpacesF]
    by_cases h1 : s.index < s.chars.length
    · by_cases h2 : isWhiteSpace (peekNextChar s) = true
      · simpa [h1, h2] using ih { s with index := s.index + 1 }
      · simp [h1, h2]
    · simp [h1]

theorem skipSpaces_chars (s : LexState) :
    (skipSpaces s).chars = s.chars ∧ (skipSpaces s).marker = s.marker := by
  rw [skipSpaces]
  exact skipSpacesF_chars _ s

theorem getNextChar_chars (s : LexState) :
    ((getNextChar s).2).chars = s.chars ∧ ((getNextChar s).2).marker = s.marker := by
  rw [getNextChar]
  by_cases h : s.index < s.chars.length <;> simp [h]

theorem scanIdentAuxF_chars (n : Nat) :
    ∀ (s : LexState) (id : String),
      (((scanIdentAuxF n s id).2).chars = s.chars ∧
       ((scanIdentAuxF n s id).2).marker = s.marker) := by
  induction n with
  | zero => intro s id; rw [scanIdentAuxF]; exact ⟨rfl, rfl⟩
  | succ n ih =>
    intro s id
    rw [scanIdentAuxF]
    by_cases h : isIdentifierPart (peekNextChar s) = true
    · have hg := getNextChar_chars s
      have := ih (getNextChar s).2 (id.push (getNextChar s).1)
      simp only [h, if_pos]
      exact ⟨this.1.trans hg.1, this.2.trans hg.2⟩
    · simp [h]

theorem scanDigitsAuxF_chars (n : Nat) :
    ∀ (s : LexState) (number : String),
      (((scanDigitsAuxF n s number).2).chars = s.chars ∧
       ((scanDigitsAuxF n s number).2).marker = s.marker) := by
  induction n with
  | zero => intro s number; rw [scanDigitsAuxF]; exact ⟨rfl, rfl⟩
  | succ n ih =>
    intro s number
    rw [scanDigitsAuxF]
    by_cases h : isDecimalDigit (peekNextChar s) = true
    · have hg := getNextChar_chars s
      have := ih (getNextChar s).2 (number.push (getNextChar s).1)
      simp only [h, if_pos]
      exact ⟨this.1.trans hg.1, this.2.trans hg.2⟩
    · simp [h]

theorem scanDigitsAux_chars (s : LexState) (number : String) :
    ((scanDigitsAux s number).2).chars = s.chars ∧
    ((scanDigitsAux s number).2).marker = s.marker := by
  rw [scanDigitsAux]
  exact scanDigitsAuxF_chars _ s number

theorem scanIdentifier_chars (s : LexState) :
    ((scanIdentifier s).2).chars = s.chars ∧
    ((scanIdentifier s).2).marker = s.marker := by
  rw [scanIdentifier]
  by_cases h : isIdentifierStart (peekNextChar s) = true
  · have hg := getNextChar_chars s
    have ha := scanIdentAuxF_chars ((getNextChar s).2.chars.length - (getNextChar s).2.index)
      (getNextChar s).2 (getNextChar s).1.toString
    simp only [h, if_pos, scanIdentAux]
    exact ⟨ha.1.trans hg.1, ha.2.trans hg.2⟩
  · simp [h]

theorem scanOperator_chars (s : LexState) :
    ((scanOperator s).2).chars = s.chars ∧
    ((scanOperator s).2).marker = s.marker := by
  rw [scanOperator]
  by_cases h : peekNextChar s ∈ ['+', '-', '*', '/', '(', ')', '^', '%', '=', ';', ','] <;>
    simp [h, getNextChar_chars s]

theorem scanNumberInt_chars (s : LexState) :
    ((scanNumberInt s).2).chars = s.chars ∧
    ((scanNumberInt s).2).marker = s.marker := by
  rw [scanNumberInt]
  by_cases h : peekNextChar s ≠ '.'
  · have hg := getNextChar_chars s
    have hd := scanDigitsAux_chars (getNextChar s).2 (getNextChar s).1.toString
    simp only [if_pos h]
    exact ⟨hd.1.trans hg.1, hd.2.trans hg.2⟩
  · simp [h]

theorem scanNumberFrac_chars (number : String) (s : LexState) :
    ((scanNumberFrac number s).2).chars = s.chars ∧
    ((scanNumberFrac number s).2).marker = s.marker := by
  rw [scanNumberFrac]
  by_cases h : peekNextChar s = '.'
  · have hg := getNextChar_chars s
    have hd := scanDigitsAux_chars (getNextChar s).2 (number.push (getNextChar s).1)
    simp only [if_pos h]
    exact ⟨hd.1.trans hg.1, hd.2.trans hg.2⟩
  · simp [h]

theorem scanNumberExp_chars (number : String) (s : LexState) :
    ((scanNumberExp number s).2).chars = s.chars ∧
    ((scanNumberExp number s).2).marker = s.marker := by
  rw [scanNumberExp]
  by_cases he : peekNextChar s = 'e' ∨ peekNextChar s = 'E'
  · have hg := getNextChar_chars s
    by_cases hsd : peekNextChar (getNextChar s).2 = '+' ∨
        peekNextChar (getNextChar s).2 = '-' ∨
        isDecimalDigit (peekNextChar (getNextChar s).2) = true
    · have hg2 := getNextChar_chars (getNextChar s).2
      have hd := scanDigitsAux_chars (getNextChar (getNextChar s).2).2
        ((number.push (getNextChar s).1).push (getNextChar (getNextChar s).2).1)
      simp only [if_pos he, if_pos hsd]
      exact ⟨(hd.1.trans hg2.1).trans hg.1, (hd.2.trans hg2.2).trans hg.2⟩
    · simp only [if_pos he, if_neg hsd]
      exact hg
  · simp [he]

theorem scanNumber_chars (s : LexState) :
    ((scanNumber s).2).chars = s.chars ∧
    ((scanNumber s).2).marker = s.marker := by
  rw [scanNumber]
  by_cases h0 : ¬ isDecimalDigit (peekNextChar s) = true ∧ peekNextChar s ≠ '.'
  · simp [h0]
  · simp only [if_neg h0]
    have h1 := scanNumberInt_chars s
    have h2 := scanNumberFrac_chars (scanNumberInt s).1 (scanNumberInt s).2
    have h3 := scanNumberExp_chars (scanNumberFrac (scanNumberInt s).1 (scanNumberInt s).2).1
      (scanNumberFrac (scanNumberInt s).1 (scanNumberInt s).2).2
    have hall : ((scanNumberExp (scanNumberFrac (scanNumberInt s).1 (scanNumberInt s).2).1
        (scanNumberFrac (scanNumberInt s).1 (scanNumberInt s).2).2).2).chars = s.chars ∧
        ((scanNumberExp (scanNumberFrac (scanNumberInt s).1 (scanNumberInt s).2).1
        (scanNumberFrac (scanNumberInt s).1 (scanNumberInt s).2).2).2).marker = s.marker :=
      ⟨(h3.1.trans h2.1).trans h1.1, (h3.2.trans h2.2).trans h1.2⟩
    cases hr : (scanNumberExp (scanNumberFrac (scanNumberInt s).1 (scanNumberInt s).2).1
        (scanNumberFrac (scanNumberInt s).1 (scanNumberInt s).2).2).1 with
    | error e => simpa [hr] using hall
    | ok number =>
      by_cases hnd : number = "."
      · simpa [hr, hnd] using hall
      · simpa [hr, hnd, createToken] using hall

theorem next_chars (s : LexState) : ((next s).2).chars = s.chars := by
  rw [next]
  have hsk := skipSpaces_chars s
  by_cases hend : (skipSpaces s).chars.length ≤ (skipSpaces s).index
  · simpa [hend] using hsk.1
  · simp only [hend, if_false]
    have htc : ({ skipSpaces s with marker := (skipSpaces s).index }).chars = s.chars := hsk.1
    generalize hm : { skipSpaces s with marker := (skipSpaces s).index } = t at htc ⊢
    cases hsn : scanNumber t with
    | mk r t' =>
      have h1 : t'.chars = t.chars := by
        have := scanNumber_chars t
        rw [hsn] at this
        exact this.1
      cases r with
      | error e => simpa using h1.trans htc
      | ok o =>
        cases o with
        | some tok => simpa using h1.trans htc
        | none =>
          simp only []
          cases hso : scanOperator t' with
          | mk o2 t₂ =>
            have h2 : t₂.chars = t'.chars := by
              have := scanOperator_chars t'
              rw [hso] at this
              exact this.1
            cases o2 with
            | some tok => simpa using (h2.trans h1).trans htc
            | none =>
              simp only []
              cases hsi : scanIdentifier t₂ with
              | mk o3 t₃ =>
                have h3 : t₃.chars = t₂.chars := by
                  have := scanIdentifier_chars t₂
                  rw [hsi] at this
                  exact this.1
                cases o3 with
                | some tok => simpa using ((h3.trans h2).trans h1).trans htc
                | none => simpa using ((h3.trans h2).trans h1).trans htc

theorem skipSpacesF_marker (n : Nat) :
    ∀ (s : LexState) (m : Nat),
      skipSpacesF n { s with marker := m } = { skipSpacesF n s with marker := m } := by
  induction n with
  | zero => intro s m; rw [skipSpacesF, skipSpacesF]
  | succ n ih =>
    intro s m
    rw [skipSpacesF, skipSpacesF]
    by_cases h1 : s.index < s.chars.length
    · by_cases h2 : isWhiteSpace (peekNextChar s) = true
      · have hc1 : ({ s with marker := m } : LexState).index < ({ s with marker := m } : LexState).chars.length := h1
        have hc2 : isWhiteSpace (peekNextChar { s with marker := m }) = true := h2
        rw [if_pos h1, if_pos h2, if_pos hc1, if_pos hc2]
        exact ih { s with index := s.index + 1 } m
      · have hc1 : ({ s with marker := m } : LexState).index < ({ s with marker := m } : LexState).chars.length := h1
        have hc2 : ¬ isWhiteSpace (peekNextChar { s with marker := m }) = true := h2
        rw [if_pos h1, if_neg h2, if_pos hc1, if_neg hc2]
    · have hc1 : ¬ ({ s with marker := m } : LexState).index < ({ s with marker := m } : LexState).chars.length := h1
      rw [if_neg h1, if_neg hc1]

theorem skipSpaces_marker (s : LexState) (m : Nat) :
    skipSpaces { s with marker := m } = { skipSpaces s with marker := m } := by
  rw [skipSpaces, skipSpaces]
  exact skipSpacesF_marker _ s m

/-- `next` overwrites `marker` before every scan, so its token result and
the `chars`/`index` of its final state do not depend on the incoming
`marker`. -/
theorem next_marker (s : LexState) (m : Nat) :
    (next { s with marker := m }).1 = (next s).1 ∧
    ((next { s with marker := m }).2).chars = ((next s).2).chars ∧
    ((next { s with marker := m }).2).index = ((next s).2).index := by
  rw [next, next, skipSpaces_marker]
  by_cases hend : (skipSpaces s).chars.length ≤ (skipSpaces s).index
  · have hend' : ({ skipSpaces s with marker := m } : LexState).chars.length ≤
        ({ skipSpaces s with marker := m } : LexState).index := hend
    rw [if_pos hend, if_pos hend']
    exact ⟨rfl, rfl, rfl⟩
  · have hend' : ¬ ({ skipSpaces s with marker := m } : LexState).chars.length ≤
        ({ skipSpaces s with marker := m } : LexState).index := hend
    rw [if_neg hend, if_neg hend']
    exact ⟨rfl, rfl, rfl⟩

/-- The stripped token `peek` returns, as a function of `next`. -/
theorem peek_fst (s : LexState) :
    (peek s).1 = (match (next s).1 with
      | .ok (some t) => some (strip t)
      | .ok none => none
      | .error _ => none) := rfl

/-- The state `peek` leaves behind: `next`'s state with the cursor
restored. -/
theorem peek_snd (s : LexState) :
    (peek s).2 = { (next s).2 with index := s.index } := rfl

/-- The post-`peek` state differs from the original only in `marker`. -/
theorem peek_snd_eq (s : LexState) :
    (peek s).2 = { s with marker := ((next s).2).marker } := by
  rw [peek_snd]
  show LexState.mk ((next s).2).chars s.index ((next s).2).marker = _
  rw [next_chars s]

/-! ## Helper lemmas: the lone-dot branch of `scanNumber` -/

/-- The digit loop is the identity when the next character is not a
digit, whatever the fuel. -/
theorem scanDigitsAuxF_stop (n : Nat) (s : LexState) (acc : String)
    (h : isDecimalDigit (peekNextChar s) = false) :
    scanDigitsAuxF n s acc = (acc, s) := by
  cases n with
  | zero => rw [scanDigitsAuxF]
  | succ n => rw [scanDigitsAuxF, if_neg (by simp [h])]

/-- `scanNumber` beginning at a `'.'` whose following character is
neither a digit nor an exponent marker collects the lone `"."` and
throws. -/
theorem scanNumber_lone_dot (u : LexState)
    (hdot : peekNextChar u = '.')
    (hlt : u.index < u.chars.length)
    (h1 : isDecimalDigit (peekNextChar { u with index := u.index + 1 }) = false)
    (h2 : peekNextChar { u with index := u.index + 1 } ≠ 'e')
    (h3 : peekNextChar { u with index := u.index + 1 } ≠ 'E') :
    scanNumber u = (.error "Expecting decimal digits after the dot sign",
      { u with index := u.index + 1 }) := by
  have hg : getNextChar u = ('.', { u with index := u.index + 1 }) := by
    rw [getNextChar, if_pos hlt]
    rw [show u.chars.getD u.index '\x00' = '.' from hdot]
  have hint : scanNumberInt u = ("", u) := by
    rw [scanNumberInt, if_neg (by simp [hdot])]
  have hfrac : scanNumberFrac "" u = (".", { u with index := u.index + 1 }) := by
    rw [scanNumberFrac, if_pos hdot]
    show scanDigitsAux (getNextChar u).2 ("".push (getNextChar u).1) = _
    rw [hg]
    show scanDigitsAux { u with index := u.index + 1 } "." = _
    rw [scanDigitsAux]
    exact scanDigitsAuxF_stop _ _ _ h1
  have hexp : scanNumberExp "." { u with index := u.index + 1 } =
      (.ok ".", { u with index := u.index + 1 }) := by
    rw [scanNumberExp, if_neg (by simp [h2, h3])]
  rw [scanNumber]
  rw [if_neg (by simp [hdot])]
  simp [hint, hfrac, hexp]

/-! ## Helper lemmas: positional behaviour of the scanners (for the
token-span partition) -/

theorem peekNextChar_null (s : LexState) (h : s.chars.length ≤ s.index) :
    peekNextChar s = '\x00' := by
  have h0 : s.chars[s.index]? = none := List.getElem?_eq_none h
  simp [peekNextChar, List.getD_eq_getElem?_getD, h0]

theorem digit_lt {s : LexState} (h : isDecimalDigit (peekNextChar s) = true) :
    s.index < s.chars.length := by
  by_contra hge
  rw [peekNextChar_null s (by omega)] at h
  exact absurd h (by decide)

theorem identPart_lt {s : LexState}
    (h : isIdentifierPart (peekNextChar s) = true) :
    s.index < s.chars.length := by
  by_contra hge
  rw [peekNextChar_null s (by omega)] at h
  exact absurd h (by decide)

theorem skipSpacesF_pos (n : Nat) :
    ∀ s : LexState, s.index ≤ s.chars.length →
      (s.index ≤ (skipSpacesF n s).index ∧
       (skipSpacesF n s).index ≤ s.chars.length ∧
       ∀ p, s.index ≤ p → p < (skipSpacesF n s).index →
         isWhiteSpace (s.chars.getD p '\x00') = true) := by
  induction n with
  | zero =>
    intro s hlen
    rw [skipSpacesF]
    exact ⟨le_rfl, hlen, fun p hp1 hp2 => absurd (lt_of_le_of_lt hp1 hp2) (lt_irrefl _)⟩
  | succ n ih =>
    intro s hlen
    rw [skipSpacesF]
    by_cases h1 : s.index < s.chars.length
    · by_cases h2 : isWhiteSpace (peekNextChar s) = true
      · rw [if_pos h1, if_pos h2]
        have := ih { s with index := s.index + 1 }
          (by show s.index + 1 ≤ s.chars.length; omega)
        obtain ⟨m1, m2, m3⟩ := this
        have m1' : s.index + 1 ≤ (skipSpacesF n { s with index := s.index + 1 }).index := m1
        have m2' : (skipSpacesF n { s with index := s.index + 1 }).index ≤ s.chars.length := m2
        refine ⟨by omega, m2', ?_⟩
        intro p hp1 hp2
        by_cases hps : p = s.index
        · subst hps
          simpa [peekNextChar] using h2
        · have h' : s.index + 1 ≤ p := by omega
          exact m3 p h' hp2
      · rw [if_pos h1, if_neg h2]
        exact ⟨le_rfl, hlen, fun p hp1 hp2 => absurd (lt_of_le_of_lt hp1 hp2) (lt_irrefl _)⟩
    · rw [if_neg h1]
      exact ⟨le_rfl, hlen, fun p hp1 hp2 => absurd (lt_of_le_of_lt hp1 hp2) (lt_irrefl _)⟩

theorem skipSpaces_pos (s : LexState) (hlen : s.index ≤ s.chars.length) :
    s.index ≤ (skipSpaces s).index ∧
    (skipSpaces s).index ≤ s.chars.length ∧
    ∀ p, s.index ≤ p → p < (skipSpaces s).index →
      isWhiteSpace (s.chars.getD p '\x00') = true := by
  rw [skipSpaces]
  exact skipSpacesF_pos _ s hlen

theorem scanDigitsAuxF_index (n : Nat) :
    ∀ (s : LexState) (acc : String), s.index ≤ s.chars.length →
      (s.index ≤ ((scanDigitsAuxF n s acc).2).index ∧
       ((scanDigitsAuxF n s acc).2).index ≤ s.chars.length) := by
  induction n with
  | zero => intro s acc hlen; rw [scanDigitsAuxF]; exact ⟨le_rfl, hlen⟩
  | succ n ih =>
    intro s acc hlen
    rw [scanDigitsAuxF]
    by_cases h : isDecimalDigit (peekNextChar s) = true
    · have hlt := digit_lt h
      rw [if_pos h]
      have hg : getNextChar s = (s.chars.getD s.index '\x00', { s with index := s.index + 1 }) := by
        rw [getNextChar, if_pos hlt]
      simp only [hg]
      obtain ⟨m1, m2⟩ := ih { s with index := s.index + 1 }
        (acc.push (s.chars.getD s.index '\x00'))
        (by show s.index + 1 ≤ s.chars.length; omega)
      have m1' : s.index + 1 ≤ ((scanDigitsAuxF n { s with index := s.index + 1 }
          (acc.push (s.chars.getD s.index '\x00'))).2).index := m1
      have m2' : ((scanDigitsAuxF n { s with index := s.index + 1 }
          (acc.push (s.chars.getD s.index '\x00'))).2).index ≤ s.chars.length := m2
      exact ⟨by omega, m2'⟩
    · rw [if_neg h]; exact ⟨le_rfl, hlen⟩

theorem scanDigitsAux_index (s : LexState) (acc : String)
    (hlen : s.index ≤ s.chars.length) :
    s.index ≤ ((scanDigitsAux s acc).2).index ∧
    ((scanDigitsAux s acc).2).index ≤ s.chars.length := by
  rw [scanDigitsAux]
  exact scanDigitsAuxF_index _ s acc hlen

theorem scanIdentAuxF_index (n : Nat) :
    ∀ (s : LexState) (acc : String), s.index ≤ s.chars.length →
      (s.index ≤ ((scanIdentAuxF n s acc).2).index ∧
       ((scanIdentAuxF n s acc).2).index ≤ s.chars.length) := by
  induction n with
  | zero => intro s acc hlen; rw [scanIdentAuxF]; exact ⟨le_rfl, hlen⟩
  | succ n ih =>
    intro s acc hlen
    rw [scanIdentAuxF]
    by_cases h : isIdentifierPart (peekNextChar s) = true
    · have hlt := identPart_lt h
      rw [if_pos h]
      have hg : getNextChar s = (s.chars.getD s.index '\x00', { s with index := s.index + 1 }) := by
        rw [getNextChar, if_pos hlt]
      simp only [hg]
      obtain ⟨m1, m2⟩ := ih { s with index := s.index + 1 }
        (acc.push (s.chars.getD s.index '\x00'))
        (by show s.index + 1 ≤ s.chars.length; omega)
      have m1' : s.index + 1 ≤ ((scanIdentAuxF n { s with index := s.index + 1 }
          (acc.push (s.chars.getD s.index '\x00'))).2).index := m1
      have m2' : ((scanIdentAuxF n { s with index := s.index + 1 }
          (acc.push (s.chars.getD s.index '\x00'))).2).index ≤ s.chars.length := m2
      exact ⟨by omega, m2'⟩
    · rw [if_neg h]; exact ⟨le_rfl, hlen⟩

theorem scanOperator_spec (s : LexState) (tok : TToken) (s' : LexState)
    (h : scanOperator s = (some tok, s')) :
    tok.start = s.marker ∧ tok.tokEnd = s.index ∧ s'.index = s.index + 1 ∧
    s.index < s.chars.length ∧ s'.chars = s.chars := by
  rw [scanOperator] at h
  by_cases hmem : peekNextChar s ∈ ['+', '-', '*', '/', '(', ')', '^', '%', '=', ';', ',']
  · have hlt : s.index < s.chars.length := by
      by_contra hge
      rw [peekNextChar_null s (by omega)] at hmem
      exact absurd hmem (by decide)
    rw [if_pos hmem] at h
    have hg : getNextChar s = (s.chars.getD s.index '\x00', { s with index := s.index + 1 }) := by
      rw [getNextChar, if_pos hlt]
    rw [hg] at h
    simp only [Prod.mk.injEq, Option.some.injEq] at h
    obtain ⟨htok, hs'⟩ := h
    rw [← htok, ← hs']
    exact ⟨rfl, by simp [createToken], rfl, hlt, rfl⟩
  · rw [if_neg hmem] at h
    exact absurd h (by simp)

theorem scanIdentifier_spec (s : LexState) (tok : TToken) (s' : LexState)
    (hlen : s.index ≤ s.chars.length)
    (h : scanIdentifier s = (some tok, s')) :
    tok.start = s.marker ∧ tok.tokEnd + 1 = s'.index ∧ s.index < s'.index ∧
    s'.index ≤ s.chars.length ∧ s'.chars = s.chars := by
  rw [scanIdentifier] at h
  by_cases hstart : isIdentifierStart (peekNextChar s) = true
  · have hlt : s.index < s.chars.length := by
      by_contra hge
      rw [peekNextChar_null s (by omega)] at hstart
      exact absurd hstart (by decide)
    have hg : getNextChar s = (s.chars.getD s.index '\x00', { s with index := s.index + 1 }) := by
      rw [getNextChar, if_pos hlt]
    rw [if_pos hstart, hg] at h
    simp only [] at h
    have hidx := scanIdentAuxF_index
      (({ s with index := s.index + 1 } : LexState).chars.length -
        ({ s with index := s.index + 1 } : LexState).index)
      { s with index := s.index + 1 } (s.chars.getD s.index '\x00').toString
      (by show s.index + 1 ≤ s.chars.length; omega)
    have hch := scanIdentAuxF_chars
      (({ s with index := s.index + 1 } : LexState).chars.length -
        ({ s with index := s.index + 1 } : LexState).index)
      { s with index := s.index + 1 } (s.chars.getD s.index '\x00').toString
    rw [show scanIdentAux { s with index := s.index + 1 } (s.chars.getD s.index '\x00').toString =
      scanIdentAuxF (({ s with index := s.index + 1 } : LexState).chars.length -
        ({ s with index := s.index + 1 } : LexState).index)
        { s with index := s.index + 1 } (s.chars.getD s.index '\x00').toString
      from rfl] at h
    set q := scanIdentAuxF (({ s with index := s.index + 1 } : LexState).chars.length -
      ({ s with index := s.index + 1 } : LexState).index)
      { s with index := s.index + 1 } (s.chars.getD s.index '\x00').toString with hq
    simp only [Prod.mk.injEq, Option.some.injEq] at h
    obtain ⟨htok, hs'⟩ := h
    have hidx1 : s.index + 1 ≤ (q.2).index := hidx.1
    have hidx2 : (q.2).index ≤ s.chars.length := hidx.2
    have hm : (q.2).marker = s.marker := hch.2
    have hc : (q.2).chars = s.chars := hch.1
    rw [← htok, ← hs']
    refine ⟨by simp [createToken, hm], ?_, by omega, by omega, hc⟩
    simp [createToken]
    omega
  · rw [if_neg hstart] at h
    exact absurd h (by simp)

theorem getNextChar_index (s : LexState) :
    s.index ≤ ((getNextChar s).2).index ∧
    ((getNextChar s).2).index ≤ s.index + 1 := by
  rw [getNextChar]
  by_cases h : s.index < s.chars.length <;> simp [h]

theorem scanNumberInt_index (s : LexState) (hlen : s.index ≤ s.chars.length) :
    s.index ≤ ((scanNumberInt s).2).index ∧
    ((scanNumberInt s).2).index ≤ s.chars.length ∧
    (isDecimalDigit (peekNextChar s) = true → s.index < ((scanNumberInt s).2).index) := by
  rw [scanNumberInt]
  by_cases h : peekNextChar s ≠ '.'
  · rw [if_pos h]
    simp only []
    by_cases hlt : s.index < s.chars.length
    · have hg : getNextChar s = (s.chars.getD s.index '\x00', { s with index := s.index + 1 }) := by
        rw [getNextChar, if_pos hlt]
      simp only [hg]
      obtain ⟨m1, m2⟩ := scanDigitsAuxF_index
        (({ s with index := s.index + 1 } : LexState).chars.length -
          ({ s with index := s.index + 1 } : LexState).index)
        { s with index := s.index + 1 } (s.chars.getD s.index '\x00').toString
        (by show s.index + 1 ≤ s.chars.length; omega)
      rw [show scanDigitsAux { s with index := s.index + 1 } (s.chars.getD s.index '\x00').toString =
        scanDigitsAuxF (({ s with index := s.index + 1 } : LexState).chars.length -
          ({ s with index := s.index + 1 } : LexState).index)
          { s with index := s.index + 1 } (s.chars.getD s.index '\x00').toString from rfl]
      have m1' : s.index + 1 ≤ ((scanDigitsAuxF
          (({ s with index := s.index + 1 } : LexState).chars.length -
            ({ s with index := s.index + 1 } : LexState).index)
          { s with index := s.index + 1 } (s.chars.getD s.index '\x00').toString).2).index := m1
      have m2' : ((scanDigitsAuxF
          (({ s with index := s.index + 1 } : LexState).chars.length -
            ({ s with index := s.index + 1 } : LexState).index)
          { s with index := s.index + 1 } (s.chars.getD s.index '\x00').toString).2).index ≤
          s.chars.length := m2
      exact ⟨by omega, m2', fun _ => by omega⟩
    · have hg : getNextChar s = ('\x00', s) := by
        rw [getNextChar, if_neg hlt]
      simp only [hg]
      rw [show scanDigitsAux s ('\x00').toString =
        scanDigitsAuxF (s.chars.length - s.index) s ('\x00').toString from rfl]
      obtain ⟨m1, m2⟩ := scanDigitsAuxF_index (s.chars.length - s.index) s
        ('\x00').toString hlen
      exact ⟨m1, m2, fun hd => absurd (digit_lt hd) hlt⟩
  · rw [if_neg h]
    refine ⟨le_rfl, hlen, fun hd => ?_⟩
    have : peekNextChar s = '.' := by
      by_contra hc
      exact h hc
    rw [this] at hd
    exact absurd hd (by decide)

theorem scanNumberFrac_index (number : String) (s : LexState)
    (hlen : s.index ≤ s.chars.length) :
    s.index ≤ ((scanNumberFrac number s).2).index ∧
    ((scanNumberFrac number s).2).index ≤ s.chars.length ∧
    (peekNextChar s = '.' → s.index < ((scanNumberFrac number s).2).index) := by
  rw [scanNumberFrac]
  by_cases h : peekNextChar s = '.'
  · have hlt : s.index < s.chars.length := by
      by_contra hge
      rw [peekNextChar_null s (by omega)] at h
      exact absurd h (by decide)
    rw [if_pos h]
    have hg : getNextChar s = (s.chars.getD s.index '\x00', { s with index := s.index + 1 }) := by
      rw [getNextChar, if_pos hlt]
    simp only [hg]
    rw [show scanDigitsAux { s with index := s.index + 1 }
        (number.push (s.chars.getD s.index '\x00')) =
      scanDigitsAuxF (({ s with index := s.index + 1 } : LexState).chars.length -
        ({ s with index := s.index + 1 } : LexState).index)
        { s with index := s.index + 1 } (number.push (s.chars.getD s.index '\x00')) from rfl]
    obtain ⟨m1, m2⟩ := scanDigitsAuxF_index
      (({ s with index := s.index + 1 } : LexState).chars.length -
        ({ s with index := s.index + 1 } : LexState).index)
      { s with index := s.index + 1 } (number.push (s.chars.getD s.index '\x00'))
      (by show s.index + 1 ≤ s.chars.length; omega)
    have m1' : s.index + 1 ≤ ((scanDigitsAuxF
        (({ s with index := s.index + 1 } : LexState).chars.length -
          ({ s with index := s.index + 1 } : LexState).index)
        { s with index := s.index + 1 } (number.push (s.chars.getD s.index '\x00'))).2).index := m1
    have m2' : ((scanDigitsAuxF
        (({ s with index := s.index + 1 } : LexState).chars.length -
          ({ s with index := s.index + 1 } : LexState).index)
        { s with index := s.index + 1 } (number.push (s.chars.getD s.index '\x00'))).2).index ≤
        s.chars.length := m2
    exact ⟨by omega, m2', fun _ => by omega⟩
  · rw [if_neg h]
    exact ⟨le_rfl, hlen, fun hd => absurd hd h⟩

theorem scanNumberExp_index (number : String) (s : LexState)
    (hlen : s.index ≤ s.chars.length) :
    s.index ≤ ((scanNumberExp number s).2).index ∧
    ((scanNumberExp number s).2).index ≤ s.chars.length := by
  rw [scanNumberExp]
  by_cases he : peekNextChar s = 'e' ∨ peekNextChar s = 'E'
  · have hlt : s.index < s.chars.length := by
      by_contra hge
      rw [peekNextChar_null s (by omega)] at he
      exact absurd he (by decide)
    rw [if_pos he]
    have hg : getNextChar s = (s.chars.getD s.index '\x00', { s with index := s.index + 1 }) := by
      rw [getNextChar, if_pos hlt]
    simp only [hg]
    by_cases hsd : peekNextChar ({ s with index := s.index + 1 } : LexState) = '+' ∨
        peekNextChar ({ s with index := s.index + 1 } : LexState) = '-' ∨
        isDecimalDigit (peekNextChar ({ s with index := s.index + 1 } : LexState)) = true
    · have hlt2 : s.index + 1 < s.chars.length := by
        by_contra hge
        have : peekNextChar ({ s with index := s.index + 1 } : LexState) = '\x00' :=
          peekNextChar_null _ (by show s.chars.length ≤ s.index + 1; omega)
        rw [this] at hsd
        rcases hsd with h' | h' | h' <;> exact absurd h' (by decide)
      rw [if_pos hsd]
      have hg2 : getNextChar ({ s with index := s.index + 1 } : LexState) =
          (s.chars.getD (s.index + 1) '\x00', { s with index := s.index + 1 + 1 }) := by
        rw [getNextChar, if_pos (show ({ s with index := s.index + 1 } : LexState).index <
          ({ s with index := s.index + 1 } : LexState).chars.length from hlt2)]
      simp only [hg2]
      rw [show scanDigitsAux { s with index := s.index + 1 + 1 }
          ((number.push (s.chars.getD s.index '\x00')).push (s.chars.getD (s.index + 1) '\x00')) =
        scanDigitsAuxF (({ s with index := s.index + 1 + 1 } : LexState).chars.length -
          ({ s with index := s.index + 1 + 1 } : LexState).index)
          { s with index := s.index + 1 + 1 }
          ((number.push (s.chars.getD s.index '\x00')).push (s.chars.getD (s.index + 1) '\x00'))
        from rfl]
      obtain ⟨m1, m2⟩ := scanDigitsAuxF_index
        (({ s with index := s.index + 1 + 1 } : LexState).chars.length -
          ({ s with index := s.index + 1 + 1 } : LexState).index)
        { s with index := s.index + 1 + 1 }
        ((number.push (s.chars.getD s.index '\x00')).push (s.chars.getD (s.index + 1) '\x00'))
        (by show s.index + 1 + 1 ≤ s.chars.length; omega)
      have m1' : s.index + 1 + 1 ≤ ((scanDigitsAuxF
          (({ s with index := s.index + 1 + 1 } : LexState).chars.length -
            ({ s with index := s.index + 1 + 1 } : LexState).index)
          { s with index := s.index + 1 + 1 }
          ((number.push (s.chars.getD s.index '\x00')).push
            (s.chars.getD (s.index + 1) '\x00'))).2).index := m1
      have m2' : ((scanDigitsAuxF
          (({ s with index := s.index + 1 + 1 } : LexState).chars.length -
            ({ s with index := s.index + 1 + 1 } : LexState).index)
          { s with index := s.index + 1 + 1 }
          ((number.push (s.chars.getD s.index '\x00')).push
            (s.chars.getD (s.index + 1) '\x00'))).2).index ≤ s.chars.length := m2
      exact ⟨by omega, m2'⟩
    · rw [if_neg hsd]
      exact ⟨by show s.index ≤ s.index + 1; omega, by show s.index + 1 ≤ s.chars.length; omega⟩
  · rw [if_neg he]
    exact ⟨le_rfl, hlen⟩

/-- A successful number scan yields a token spanning `[marker, index-1]`
of the final state, consumes at least one character, and stays within the
input. -/
theorem scanNumber_spec (s : LexState) (tok : TToken) (s' : LexState)
    (hlen : s.index ≤ s.chars.length)
    (h : scanNumber s = (.ok (some tok), s')) :
    tok.start = s.marker ∧ tok.tokEnd + 1 = s'.index ∧ s.index < s'.index ∧
    s'.index ≤ s.chars.length := by
  rw [scanNumber] at h
  by_cases h0 : ¬ isDecimalDigit (peekNextChar s) = true ∧ peekNextChar s ≠ '.'
  · rw [if_pos h0] at h
    exact absurd h (by simp)
  · rw [if_neg h0] at h
    simp only [] at h
    have i1c := scanNumberInt_chars s
    have i1 := scanNumberInt_index s hlen
    have f1c := scanNumberFrac_chars (scanNumberInt s).1 (scanNumberInt s).2
    have f1 := scanNumberFrac_index (scanNumberInt s).1 (scanNumberInt s).2
      (by rw [i1c.1]; exact i1.2.1)
    rw [i1c.1] at f1
    have e1c := scanNumberExp_chars (scanNumberFrac (scanNumberInt s).1 (scanNumberInt s).2).1
      (scanNumberFrac (scanNumberInt s).1 (scanNumberInt s).2).2
    have e1 := scanNumberExp_index (scanNumberFrac (scanNumberInt s).1 (scanNumberInt s).2).1
      (scanNumberFrac (scanNumberInt s).1 (scanNumberInt s).2).2
      (by rw [f1c.1, i1c.1]; exact f1.2.1)
    rw [f1c.1, i1c.1] at e1
    have hstrict : s.index <
        ((scanNumberFrac (scanNumberInt s).1 (scanNumberInt s).2).2).index := by
      by_cases hd : isDecimalDigit (peekNextChar s) = true
      · have := i1.2.2 hd
        omega
      · have hdot : peekNextChar s = '.' := by
          rcases not_and_or.mp h0 with h' | h'
          · exact absurd hd (by simpa using h')
          · simpa using h'
        have hint : scanNumberInt s = ("", s) := by
          rw [scanNumberInt, if_neg (by simp [hdot])]
        have := f1.2.2
        rw [hint] at this ⊢
        exact this hdot
    cases hr : (scanNumberExp (scanNumberFrac (scanNumberInt s).1 (scanNumberInt s).2).1
        (scanNumberFrac (scanNumberInt s).1 (scanNumberInt s).2).2).1 with
    | error e =>
      rw [hr] at h
      exact absurd h (by simp)
    | ok number =>
      rw [hr] at h
      simp only [] at h
      by_cases hnd : number = "."
      · rw [if_pos hnd] at h
        exact absurd h (by simp)
      · rw [if_neg hnd] at h
        simp only [Prod.mk.injEq, Except.ok.injEq, Option.some.injEq] at h
        obtain ⟨htok, hs'⟩ := h
        rw [← htok, ← hs']
        have hmark : ((scanNumberExp (scanNumberFrac (scanNumberInt s).1
            (scanNumberInt s).2).1
            (scanNumberFrac (scanNumberInt s).1 (scanNumberInt s).2).2).2).marker =
            s.marker := by
          rw [e1c.2, f1c.2, i1c.2]
        have hidx : s.index < ((scanNumberExp (scanNumberFrac (scanNumberInt s).1
            (scanNumberInt s).2).1
            (scanNumberFrac (scanNumberInt s).1 (scanNumberInt s).2).2).2).index := by
          have := e1.1
          omega
        refine ⟨by simp [createToken, hmark], ?_, hidx, e1.2⟩
        simp [createToken]
        omega

/-- `scanNumber` reports "no number token here" only without moving. -/
theorem scanNumber_none (s s₂ : LexState)
    (h : scanNumber s = (.ok none, s₂)) : s₂ = s := by
  rw [scanNumber] at h
  by_cases h0 : ¬ isDecimalDigit (peekNextChar s) = true ∧ peekNextChar s ≠ '.'
  · rw [if_pos h0] at h
    simp only [Prod.mk.injEq] at h
    exact h.2.symm
  · rw [if_neg h0] at h
    simp only [] at h
    cases hr : (scanNumberExp (scanNumberFrac (scanNumberInt s).1 (scanNumberInt s).2).1
        (scanNumberFrac (scanNumberInt s).1 (scanNumberInt s).2).2).1 with
    | error e => rw [hr] at h; exact absurd h (by simp)
    | ok number =>
      rw [hr] at h
      simp only [] at h
      by_cases hnd : number = "."
      · rw [if_pos hnd] at h
        exact absurd h (by simp)
      · rw [if_neg hnd] at h
        exact absurd h (by simp)

/-- `scanOperator` reports "no operator here" only without moving. -/
theorem scanOperator_none (s s₂ : LexState)
    (h : scanOperator s = (none, s₂)) : s₂ = s := by
  rw [scanOperator] at h
  by_cases hmem : peekNextChar s ∈ ['+', '-', '*', '/', '(', ')', '^', '%', '=', ';', ',']
  · rw [if_pos hmem] at h
    exact absurd h (by simp)
  · rw [if_neg hmem] at h
    simp only [Prod.mk.injEq] at h
    exact h.2.symm

/-- A consumed token's span: `next` skips whitespace (and only
whitespace), then scans a token whose inclusive span `[start, tokEnd]`
runs from the skip position to just before the final cursor. -/
theorem next_spec_tok (s : LexState) (t : TToken) (s' : LexState)
    (hlen : s.index ≤ s.chars.length)
    (h : next s = (.ok (some t), s')) :
    s'.chars = s.chars ∧ s.index ≤ t.start ∧ t.start ≤ t.tokEnd ∧
    t.tokEnd + 1 = s'.index ∧ s'.index ≤ s.chars.length ∧
    (∀ p, s.index ≤ p → p < t.start →
      isWhiteSpace (s.chars.getD p '\x00') = true) := by
  have hchars : s'.chars = s.chars := by
    have := next_chars s
    rw [h] at this
    exact this
  obtain ⟨ksk1, ksk2, ksk3⟩ := skipSpaces_pos s hlen
  have hskc := skipSpaces_chars s
  rw [next] at h
  by_cases hend : (skipSpaces s).chars.length ≤ (skipSpaces s).index
  · rw [if_pos hend] at h
    exact absurd h (by simp)
  · rw [if_neg hend] at h
    simp only [] at h
    set w : LexState := { skipSpaces s with marker := (skipSpaces s).index } with hw
    have hwi : w.index = (skipSpaces s).index := rfl
    have hwm : w.marker = (skipSpaces s).index := rfl
    have hwc : w.chars = s.chars := hskc.1
    have hwlen : w.index ≤ w.chars.length := by
      rw [hwi, hwc]
      rw [hskc.1] at hend
      omega
    cases hsn : scanNumber w with
    | mk r w₁ =>
      rw [hsn] at h
      cases r with
      | error e => exact absurd h (by simp)
      | ok o =>
        cases o with
        | some tok =>
          simp only [Prod.mk.injEq, Except.ok.injEq, Option.some.injEq] at h
          obtain ⟨htok, hs'⟩ := h
          obtain ⟨p1, p2, p3, p4⟩ := scanNumber_spec w tok w₁ hwlen hsn
          rw [← htok, ← hs']
          rw [hwm] at p1
          rw [hwi] at p3
          rw [hwc] at p4
          exact ⟨by rw [hs']; exact hchars,
            by omega, by omega, by omega, by omega, fun p hp1 hp2 => ksk3 p hp1 (by omega)⟩
        | none =>
          have hw₁ := scanNumber_none w w₁ hsn
          subst hw₁
          simp only [] at h
          cases hso : scanOperator w with
          | mk o2 w₂ =>
            rw [hso] at h
            cases o2 with
            | some tok =>
              simp only [Prod.mk.injEq, Except.ok.injEq, Option.some.injEq] at h
              obtain ⟨htok, hs'⟩ := h
              obtain ⟨q1, q2, q3, q4, q5⟩ := scanOperator_spec w tok w₂ hso
              rw [← htok, ← hs']
              rw [hwm] at q1
              rw [hwi] at q2 q3 q4
              rw [hwc] at q4
              exact ⟨by rw [hs']; exact hchars, by omega, by omega, by omega,
                by omega, fun p hp1 hp2 => ksk3 p hp1 (by omega)⟩
            | none =>
              have hw₂ := scanOperator_none w w₂ hso
              subst hw₂
              simp only [] at h
              cases hsi : scanIdentifier w with
              | mk o3 w₃ =>
                rw [hsi] at h
                cases o3 with
                | some tok =>
                  simp only [Prod.mk.injEq, Except.ok.injEq, Option.some.injEq] at h
                  obtain ⟨htok, hs'⟩ := h
                  obtain ⟨r1, r2, r3, r4, r5⟩ := scanIdentifier_spec w tok w₃ hwlen hsi
                  rw [← htok, ← hs']
                  rw [hwm] at r1
                  rw [hwi] at r3
                  rw [hwc] at r4
                  exact ⟨by rw [hs']; exact hchars, by omega, by omega, by omega,
                    by omega, fun p hp1 hp2 => ksk3 p hp1 (by omega)⟩
                | none => exact absurd h (by simp)

/-- The end-of-input marker means everything from the cursor on is
whitespace. -/
theorem next_spec_none (s : LexState) (s' : LexState)
    (hlen : s.index ≤ s.chars.length)
    (h : next s = (.ok none, s')) :
    ∀ p, s.index ≤ p → p < s.chars.length →
      isWhiteSpace (s.chars.getD p '\x00') = true := by
  obtain ⟨ksk1, ksk2, ksk3⟩ := skipSpaces_pos s hlen
  have hskc := skipSpaces_chars s
  rw [next] at h
  by_cases hend : (skipSpaces s).chars.length ≤ (skipSpaces s).index
  · intro p hp1 hp2
    rw [hskc.1] at hend
    exact ksk3 p hp1 (by omega)
  · exfalso
    rw [if_neg hend] at h
    simp only [] at h
    set w : LexState := { skipSpaces s with marker := (skipSpaces s).index } with hw
    cases hsn : scanNumber w with
    | mk r w₁ =>
      rw [hsn] at h
      cases r with
      | error e => exact absurd h (by simp)
      | ok o =>
        cases o with
        | some tok => exact absurd h (by simp)
        | none =>
          have hw₁ := scanNumber_none w w₁ hsn
          subst hw₁
          simp only [] at h
          cases hso : scanOperator w with
          | mk o2 w₂ =>
            rw [hso] at h
            cases o2 with
            | some tok => exact absurd h (by simp)
            | none =>
              have hw₂ := scanOperator_none w w₂ hso
              subst hw₂
              simp only [] at h
              cases hsi : scanIdentifier w with
              | mk o3 w₃ =>
                rw [hsi] at h
                cases o3 with
                | some tok => exact absurd h (by simp)
                | none => exact absurd h (by simp)

/-- The partition invariant of a successful lexer run, relative to the
starting cursor. -/
theorem lexRun_partition :
    ∀ (fuel : Nat) (s : LexState) (ts : List TToken),
      s.index ≤ s.chars.length →
      lexRun fuel s = .ok ts →
      (∀ t ∈ ts, s.index ≤ t.start ∧ t.start ≤ t.tokEnd ∧
        t.tokEnd < s.chars.length) ∧
      List.Chain' (fun a b => a.tokEnd < b.start) ts ∧
      (∀ p, s.index ≤ p → p < s.chars.length →
        coveredBy ts p ∨ isWhiteSpace (s.chars.getD p '\x00') = true) ∧
      spanSum ts + wsTotal s.index s.chars.length ts =
        s.chars.length - s.index := by
  intro fuel
  induction fuel with
  | zero => intro s ts hlen h; rw [lexRun] at h; exact absurd h (by simp)
  | succ n ih =>
    intro s ts hlen h
    rw [lexRun] at h
    cases hnx : next s with
    | mk r s₁ =>
      rw [hnx] at h
      cases r with
      | error e => exact absurd h (by simp)
      | ok o =>
        cases o with
        | none =>
          simp only [Except.ok.injEq] at h
          subst h
          have hws := next_spec_none s s₁ hlen hnx
          refine ⟨by simp, by simp, ?_, ?_⟩
          · intro p hp1 hp2
            exact Or.inr (hws p hp1 hp2)
          · rw [spanSum, wsTotal]
            omega
        | some t =>
          simp only [] at h
          cases hrec : lexRun n s₁ with
          | error e => rw [hrec] at h; exact absurd h (by simp)
          | ok ts' =>
            rw [hrec] at h
            simp only [Except.ok.injEq] at h
            subst h
            obtain ⟨hc, hst1, hst2, hend1, hend2, hwreg⟩ :=
              next_spec_tok s t s₁ hlen hnx
            have hlen₁ : s₁.index ≤ s₁.chars.length := by rw [hc]; omega
            obtain ⟨ih1, ih2, ih3, ih4⟩ := ih s₁ ts' hlen₁ hrec
            rw [hc] at ih1 ih3 ih4
            refine ⟨?_, ?_, ?_, ?_⟩
            · intro t' ht'
              rcases List.mem_cons.mp ht' with rfl | hmem
              · exact ⟨hst1, hst2, by omega⟩
              · have := ih1 t' hmem
                exact ⟨by omega, this.2.1, this.2.2⟩
            · rw [List.chain'_cons']
              refine ⟨?_, ih2⟩
              intro y hy
              have hymem : y ∈ ts' := List.mem_of_mem_head? hy
              have := ih1 y hymem
              omega
            · intro p hp1 hp2
              by_cases hpt : p < t.start
              · exact Or.inr (hwreg p hp1 hpt)
              · by_cases hpe : p ≤ t.tokEnd
                · exact Or.inl (show coveredBy (t :: ts') p from
                    ⟨t, List.mem_cons_self t ts', by omega, hpe⟩)
                · rcases ih3 p (by omega) hp2 with hcov | hws
                  · obtain ⟨t', ht'm, ht'1, ht'2⟩ := hcov
                    exact Or.inl (show coveredBy (t :: ts') p from
                      ⟨t', List.mem_cons_of_mem t ht'm, ht'1, ht'2⟩)
                  · exact Or.inr hws
            · rw [spanSum, wsTotal]
              rw [← hend1] at ih4
              have hst3 : t.tokEnd < s.chars.length := by omega
              omega

/-- Claim C9: on any input whose tokenization runs to the end-of-input
marker without raising, the token spans `[start, end]` together with the
skipped whitespace exactly partition the input: the spans are disjoint and
in increasing order (`Chain'`), every character position lies inside some
span or holds a whitespace character, and the span lengths plus the gap
lengths (before each token and after the last) sum to the input length. -/
theorem c9_token_spans_partition (text : String) (fuel : Nat)
    (ts : List TToken)
    (h : lexRun fuel (resetState text) = .ok ts) :
    (∀ t ∈ ts, t.start ≤ t.tokEnd ∧ t.tokEnd < text.length) ∧
    List.Chain' (fun a b => a.tokEnd < b.start) ts ∧
    (∀ p, p < text.length →
      coveredBy ts p ∨ isWhiteSpace (text.data.getD p '\x00') = true) ∧
    spanSum ts + wsTotal 0 text.length ts = text.length := by
  have h0 : (resetState text).index ≤ (resetState text).chars.length := by
    simp [resetState]
  obtain ⟨a, b, c, d⟩ := lexRun_partition fuel (resetState text) ts h0 h
  refine ⟨fun t ht => ⟨(a t ht).2.1, (a t ht).2.2⟩, b, ?_, ?_⟩
  · intro p hp
    exact c p (Nat.zero_le p) hp
  · exact d

/-- Witness for `c9_token_spans_partition` on the input "1 + 23". -/
theorem c9_token_spans_partition_witness :
    lexRun 10 (resetState "1 + 23") =
      .ok [⟨"Number", "1", 0, 0⟩, ⟨"Operator", "+", 2, 2⟩, ⟨"Number", "23", 4, 5⟩] ∧
    ((∀ t ∈ [(⟨"Number", "1", 0, 0⟩ : TToken), ⟨"Operator", "+", 2, 2⟩,
        ⟨"Number", "23", 4, 5⟩], t.start ≤ t.tokEnd ∧ t.tokEnd < ("1 + 23").length) ∧
      List.Chain' (fun a b => a.tokEnd < b.start)
        [(⟨"Number", "1", 0, 0⟩ : TToken), ⟨"Operator", "+", 2, 2⟩, ⟨"Number", "23", 4, 5⟩] ∧
      (∀ p, p < ("1 + 23").length →
        coveredBy [(⟨"Number", "1", 0, 0⟩ : TToken), ⟨"Operator", "+", 2, 2⟩,
          ⟨"Number", "23", 4, 5⟩] p ∨
        isWhiteSpace (("1 + 23").data.getD p '\x00') = true) ∧
      spanSum [(⟨"Number", "1", 0, 0⟩ : TToken), ⟨"Operator", "+", 2, 2⟩,
        ⟨"Number", "23", 4, 5⟩] +
        wsTotal 0 ("1 + 23").length
          [(⟨"Number", "1", 0, 0⟩ : TToken), ⟨"Operator", "+", 2, 2⟩,
            ⟨"Number", "23", 4, 5⟩] = ("1 + 23").length) := by
  have hrun : lexRun 10 (resetState "1 + 23") =
      .ok [⟨"Number", "1", 0, 0⟩, ⟨"Operator", "+", 2, 2⟩, ⟨"Number", "23", 4, 5⟩] := by
    have wnx1 : next ⟨['1', ' ', '+', ' ', '2', '3'], 0, 0⟩ =
      (.ok (some ⟨"Number", "1", 0, 0⟩), ⟨['1', ' ', '+', ' ', '2', '3'], 1, 0⟩) := by rfl
    have wnx2 : next ⟨['1', ' ', '+', ' ', '2', '3'], 1, 0⟩ =
      (.ok (some ⟨"Operator", "+", 2, 2⟩), ⟨['1', ' ', '+', ' ', '2', '3'], 3, 2⟩) := by rfl
    have wnx3 : next ⟨['1', ' ', '+', ' ', '2', '3'], 3, 2⟩ =
      (.ok (some ⟨"Number", "23", 4, 5⟩), ⟨['1', ' ', '+', ' ', '2', '3'], 6, 4⟩) := by rfl
    have wnx4 : next ⟨['1', ' ', '+', ' ', '2', '3'], 6, 4⟩ =
      (.ok none, ⟨['1', ' ', '+', ' ', '2', '3'], 6, 4⟩) := by rfl
    have hs0 : resetState "1 + 23" = ⟨['1', ' ', '+', ' ', '2', '3'], 0, 0⟩ := by rfl
    simp [lexRun, hs0, wnx1, wnx2, wnx3, wnx4]
  exact ⟨hrun, c9_token_spans_partition "1 + 23" 10 _ hrun⟩

/-! ## Claim theorems -/

/-- Claim C1: for a fresh `Evaluator` over any environment,
`evaluate("1+2*3")` returns `7` and `evaluate("(1+2)*3")` returns `9`:
`*` and `/` bind tighter than `+` and `-`, and a parenthesized
subexpression overrides that default precedence. The environment is
returned unchanged. -/
theorem c1_precedence_and_grouping (ctx : Context) :
    evaluate "1+2*3" ctx = .ok (7, ctx) ∧ evaluate "(1+2)*3" ctx = .ok (9, ctx) := by
  constructor
  · simp [evaluate, parse_mulPrec, exec, parseNumberLit_one, parseNumberLit_two,
      parseNumberLit_three]
    norm_num
  · simp [evaluate, parse_parenPrec, exec, parseNumberLit_one, parseNumberLit_two,
      parseNumberLit_three]
    norm_num

/-- Claim C2, counterexample: in an environment whose `Variables` map does
not bind `x` (so "variable x is unbound") but whose `Constants` map does,
`evaluate("x = 5")` returns `5` and stores `5` under `x` in `Variables`, yet
the subsequent `evaluate("x + 1")` against the same environment returns
`0 + 1 = 1`, not `6`: identifier lookup consults `Constants` first. -/
theorem c2_counterexample :
    (Context.mk [("x", 0)] [] []).Variables = [] ∧
    evaluate "x = 5" (Context.mk [("x", 0)] [] []) =
      .ok (5, Context.mk [("x", 0)] [] [("x", 5)]) ∧
    evaluate "x + 1" (Context.mk [("x", 0)] [] [("x", 5)]) =
      .ok (1, Context.mk [("x", 0)] [] [("x", 5)]) ∧ (1 : ℚ) ≠ 6 := by
  refine ⟨rfl, ?_, ?_, by norm_num⟩
  · simp [evaluate, parse_assignX, exec, insertVar, parseNumberLit_five]
  · simp [evaluate, parse_xPlusOne, exec, List.lookup, parseNumberLit_one]

/-- Claim C2 (amended: the environment must bind `x` neither as a variable
nor as a constant — a constant binding would shadow the assigned variable
on lookup): `evaluate("x = 5")` returns `5` and stores `5` under `x` in the
environment's `Variables` map, and the subsequent `evaluate("x + 1")`
against the updated environment returns `6`. -/
theorem c2_assignment_persists (ctx : Context)
    (hc : List.lookup "x" ctx.Constants = none)
    (_hv : List.lookup "x" ctx.Variables = none) :
    evaluate "x = 5" ctx =
      .ok (5, { ctx with Variables := insertVar "x" 5 ctx.Variables }) ∧
    List.lookup "x" (insertVar "x" 5 ctx.Variables) = some 5 ∧
    evaluate "x + 1" { ctx with Variables := insertVar "x" 5 ctx.Variables } =
      .ok (6, { ctx with Variables := insertVar "x" 5 ctx.Variables }) := by
  refine ⟨?_, lookup_insertVar_self "x" 5 ctx.Variables, ?_⟩
  · simp [evaluate, parse_assignX, exec, parseNumberLit_five]
  · simp [evaluate, parse_xPlusOne, exec, hc, lookup_insertVar_self,
      parseNumberLit_one]
    norm_num

/-- Witness for `c2_assignment_persists` at the empty environment. -/
theorem c2_assignment_persists_witness :
    List.lookup "x" (Context.mk [] [] []).Constants = none ∧
    List.lookup "x" (Context.mk [] [] []).Variables = none ∧
    (evaluate "x = 5" (Context.mk [] [] []) =
        .ok (5, { Context.mk [] [] [] with
                    Variables := insertVar "x" 5 (Context.mk [] [] []).Variables }) ∧
      List.lookup "x" (insertVar "x" 5 (Context.mk [] [] []).Variables) = some 5 ∧
      evaluate "x + 1"
          { Context.mk [] [] [] with
              Variables := insertVar "x" 5 (Context.mk [] [] []).Variables } =
        .ok (6, { Context.mk [] [] [] with
                    Variables := insertVar "x" 5 (Context.mk [] [] []).Variables })) :=
  ⟨rfl, rfl, c2_assignment_persists (Context.mk [] [] []) rfl rfl⟩

/-- Claim C3: for a name bound in the environment's `Constants` map,
executing an assignment to that name writes the evaluated right-hand side
into `Variables` (and returns it), yet evaluating that identifier
afterwards still returns the constant's value: resolution tries
`Constants` before `Variables`, so the written variable is shadowed. -/
theorem c3_constant_shadows_assignment (ctx : Context) (name : String)
    (c v : ℚ) (rhs : TNode) (ctx' : Context)
    (hc : List.lookup name ctx.Constants = some c)
    (hrhs : exec rhs ctx = .ok (v, ctx')) :
    exec (.Assignment name rhs) ctx =
      .ok (v, { ctx' with Variables := insertVar name v ctx'.Variables }) ∧
    List.lookup name (insertVar name v ctx'.Variables) = some v ∧
    exec (.Identifier name) { ctx' with Variables := insertVar name v ctx'.Variables } =
      .ok (c, { ctx' with Variables := insertVar name v ctx'.Variables }) := by
  have hpres := exec_preserves rhs ctx v ctx' hrhs
  refine ⟨?_, lookup_insertVar_self name v ctx'.Variables, ?_⟩
  · rw [exec, hrhs]
  · rw [exec]
    simp [hpres.1, hc]

/-- Witness for `c3_constant_shadows_assignment`: assigning `5` to the
registered constant name `pi`. -/
theorem c3_constant_shadows_assignment_witness :
    List.lookup "pi" (Context.mk [("pi", 3)] [] []).Constants = some 3 ∧
    exec (.Number "5") (Context.mk [("pi", 3)] [] []) =
      .ok (5, Context.mk [("pi", 3)] [] []) ∧
    (exec (.Assignment "pi" (.Number "5")) (Context.mk [("pi", 3)] [] []) =
        .ok (5, { Context.mk [("pi", 3)] [] [] with
                    Variables := insertVar "pi" 5 (Context.mk [("pi", 3)] [] []).Variables }) ∧
      List.lookup "pi" (insertVar "pi" 5 (Context.mk [("pi", 3)] [] []).Variables) = some 5 ∧
      exec (.Identifier "pi")
          { Context.mk [("pi", 3)] [] [] with
              Variables := insertVar "pi" 5 (Context.mk [("pi", 3)] [] []).Variables } =
        .ok (3, { Context.mk [("pi", 3)] [] [] with
                    Variables := insertVar "pi" 5 (Context.mk [("pi", 3)] [] []).Variables })) := by
  have h5 : exec (.Number "5") (Context.mk [("pi", 3)] [] []) =
      .ok (5, Context.mk [("pi", 3)] [] []) := by
    rw [exec, parseNumberLit_five]
  exact ⟨by simp [List.lookup], h5,
    c3_constant_shadows_assignment (Context.mk [("pi", 3)] [] []) "pi" 3 5
      (.Number "5") (Context.mk [("pi", 3)] [] []) (by simp [List.lookup]) h5⟩

set_option maxHeartbeats 1000000 in
/-- Parsing `"foo(1)"` with the class-based parser against any context
whose `Functions` table does not register `foo`: after the `(` is
consumed, `parseFunctionCall` throws the `ParserError`
`Unknown function "foo"` (column `marker - 1 = 2`, the start of the `(`
token minus one) and the parse aborts. -/
theorem demoParse_unknownFoo (C V : List (String × ℚ))
    (fs : List (String × ((List ℚ → ℚ) × Nat)))
    (h : List.lookup "foo" fs = none) :
    demoParse ⟨C, fs, V⟩ "foo(1)" =
      .error "ParseError: Unknown function \"foo\" [col=2]" := by
  have hs0 : resetState "foo(1)" = ⟨['f', 'o', 'o', '(', '1', ')'], 0, 0⟩ := by rfl
  have hfuel : ("foo(1)".length + 1) * 8 = 56 := by rfl
  have upk80 : demoPeek ⟨['f', 'o', 'o', '(', '1', ')'], 0, 0⟩ = (some ⟨"Identifier", "foo"⟩, ⟨['f', 'o', 'o', '(', '1', ')'], 0, 0⟩) := by rfl
  have unx82 : demoNext ⟨['f', 'o', 'o', '(', '1', ')'], 0, 0⟩ = (.ok (some ⟨"Identifier", "foo", 0, 2⟩), ⟨['f', 'o', 'o', '(', '1', ')'], 3, 0⟩) := by rfl
  have upk76 : demoPeek ⟨['f', 'o', 'o', '(', '1', ')'], 3, 0⟩ = (some ⟨"Operator", "("⟩, ⟨['f', 'o', 'o', '(', '1', ')'], 3, 3⟩) := by rfl
  have upk77 : demoPeek ⟨['f', 'o', 'o', '(', '1', ')'], 3, 3⟩ = (some ⟨"Operator", "("⟩, ⟨['f', 'o', 'o', '(', '1', ')'], 3, 3⟩) := by rfl
  have unx78 : demoNext ⟨['f', 'o', 'o', '(', '1', ')'], 3, 0⟩ = (.ok (some ⟨"Operator", "(", 3, 3⟩), ⟨['f', 'o', 'o', '(', '1', ')'], 4, 3⟩) := by rfl
  have unx79 : demoNext ⟨['f', 'o', 'o', '(', '1', ')'], 3, 3⟩ = (.ok (some ⟨"Operator", "(", 3, 3⟩), ⟨['f', 'o', 'o', '(', '1', ')'], 4, 3⟩) := by rfl
  have upk72 : demoPeek ⟨['f', 'o', 'o', '(', '1', ')'], 4, 3⟩ = (some ⟨"Number", "1"⟩, ⟨['f', 'o', 'o', '(', '1', ')'], 4, 4⟩) := by rfl
  have upk73 : demoPeek ⟨['f', 'o', 'o', '(', '1', ')'], 4, 4⟩ = (some ⟨"Number", "1"⟩, ⟨['f', 'o', 'o', '(', '1', ')'], 4, 4⟩) := by rfl
  have unx74 : demoNext ⟨['f', 'o', 'o', '(', '1', ')'], 4, 3⟩ = (.ok (some ⟨"Number", "1", 4, 4⟩), ⟨['f', 'o', 'o', '(', '1', ')'], 5, 4⟩) := by rfl
  have unx75 : demoNext ⟨['f', 'o', 'o', '(', '1', ')'], 4, 4⟩ = (.ok (some ⟨"Number", "1", 4, 4⟩), ⟨['f', 'o', 'o', '(', '1', ')'], 5, 4⟩) := by rfl
  have upk68 : demoPeek ⟨['f', 'o', 'o', '(', '1', ')'], 5, 4⟩ = (some ⟨"Operator", ")"⟩, ⟨['f', 'o', 'o', '(', '1', ')'], 5, 5⟩) := by rfl
  have upk69 : demoPeek ⟨['f', 'o', 'o', '(', '1', ')'], 5, 5⟩ = (some ⟨"Operator", ")"⟩, ⟨['f', 'o', 'o', '(', '1', ')'], 5, 5⟩) := by rfl
  have unx70 : demoNext ⟨['f', 'o', 'o', '(', '1', ')'], 5, 4⟩ = (.ok (some ⟨"Operator", ")", 5, 5⟩), ⟨['f', 'o', 'o', '(', '1', ')'], 6, 5⟩) := by rfl
  have unx71 : demoNext ⟨['f', 'o', 'o', '(', '1', ')'], 5, 5⟩ = (.ok (some ⟨"Operator", ")", 5, 5⟩), ⟨['f', 'o', 'o', '(', '1', ')'], 6, 5⟩) := by rfl
  have upk64 : demoPeek ⟨['f', 'o', 'o', '(', '1', ')'], 6, 5⟩ = (none, ⟨['f', 'o', 'o', '(', '1', ')'], 6, 5⟩) := by rfl
  have unx66 : demoNext ⟨['f', 'o', 'o', '(', '1', ')'], 6, 5⟩ = (.ok (none), ⟨['f', 'o', 'o', '(', '1', ')'], 6, 5⟩) := by rfl
  simp [hs0, hfuel, upk80, unx82, upk76, upk77, unx78, unx79, upk72, upk73, unx74, unx75, upk68, upk69, unx70, unx71, upk64, unx66, h,
    demoParse, demoParseExpressionF, demoParseAssignmentF, demoParseAdditiveF,
    demoParseAddLoopF, demoParseMultiplicativeF, demoParseMulLoopF, demoParseUnaryF,
    demoParsePrimaryF, demoParseFunctionCallF, demoParseArgumentListF,
    matchOp, matchOpTok, parserErr, T.Operator, T.Identifier, T.Number]
  rfl

set_option maxHeartbeats 1000000 in
/-- Parsing `"bar(1)"` with the class-based parser against any context
whose `Functions` table registers `bar` with declared arity 2: the
argument list parses to the single argument `1`, and before the closing
`)` is consumed `parseFunctionCall` throws the `ParserError`
`Function bar() expects 2 arg(s), found 1` (column `marker - 1 = 4`,
the marker left by the lookahead at the `)` token minus one) and the
parse aborts. -/
theorem demoParse_arityBar (C V : List (String × ℚ)) (g : List ℚ → ℚ)
    (fs : List (String × ((List ℚ → ℚ) × Nat)))
    (h : List.lookup "bar" fs = some (g, 2)) :
    demoParse ⟨C, fs, V⟩ "bar(1)" =
      .error "ParseError: Function bar() expects 2 arg(s), found 1 [col=4]" := by
  have hs0 : resetState "bar(1)" = ⟨['b', 'a', 'r', '(', '1', ')'], 0, 0⟩ := by rfl
  have hfuel : ("bar(1)".length + 1) * 8 = 56 := by rfl
  have vpk80 : demoPeek ⟨['b', 'a', 'r', '(', '1', ')'], 0, 0⟩ = (some ⟨"Identifier", "bar"⟩, ⟨['b', 'a', 'r', '(', '1', ')'], 0, 0⟩) := by rfl
  have vnx82 : demoNext ⟨['b', 'a', 'r', '(', '1', ')'], 0, 0⟩ = (.ok (some ⟨"Identifier", "bar", 0, 2⟩), ⟨['b', 'a', 'r', '(', '1', ')'], 3, 0⟩) := by rfl
  have vpk76 : demoPeek ⟨['b', 'a', 'r', '(', '1', ')'], 3, 0⟩ = (some ⟨"Operator", "("⟩, ⟨['b', 'a', 'r', '(', '1', ')'], 3, 3⟩) := by rfl
  have vpk77 : demoPeek ⟨['b', 'a', 'r', '(', '1', ')'], 3, 3⟩ = (some ⟨"Operator", "("⟩, ⟨['b', 'a', 'r', '(', '1', ')'], 3, 3⟩) := by rfl
  have vnx78 : demoNext ⟨['b', 'a', 'r', '(', '1', ')'], 3, 0⟩ = (.ok (some ⟨"Operator", "(", 3, 3⟩), ⟨['b', 'a', 'r', '(', '1', ')'], 4, 3⟩) := by rfl
  have vnx79 : demoNext ⟨['b', 'a', 'r', '(', '1', ')'], 3, 3⟩ = (.ok (some ⟨"Operator", "(", 3, 3⟩), ⟨['b', 'a', 'r', '(', '1', ')'], 4, 3⟩) := by rfl
  have vpk72 : demoPeek ⟨['b', 'a', 'r', '(', '1', ')'], 4, 3⟩ = (some ⟨"Number", "1"⟩, ⟨['b', 'a', 'r', '(', '1', ')'], 4, 4⟩) := by rfl
  have vpk73 : demoPeek ⟨['b', 'a', 'r', '(', '1', ')'], 4, 4⟩ = (some ⟨"Number", "1"⟩, ⟨['b', 'a', 'r', '(', '1', ')'], 4, 4⟩) := by rfl
  have vnx74 : demoNext ⟨['b', 'a', 'r', '(', '1', ')'], 4, 3⟩ = (.ok (some ⟨"Number", "1", 4, 4⟩), ⟨['b', 'a', 'r', '(', '1', ')'], 5, 4⟩) := by rfl
  have vnx75 : demoNext ⟨['b', 'a', 'r', '(', '1', ')'], 4, 4⟩ = (.ok (some ⟨"Number", "1", 4, 4⟩), ⟨['b', 'a', 'r', '(', '1', ')'], 5, 4⟩) := by rfl
  have vpk68 : demoPeek ⟨['b', 'a', 'r', '(', '1', ')'], 5, 4⟩ = (some ⟨"Operator", ")"⟩, ⟨['b', 'a', 'r', '(', '1', ')'], 5, 5⟩) := by rfl
  have vpk69 : demoPeek ⟨['b', 'a', 'r', '(', '1', ')'], 5, 5⟩ = (some ⟨"Operator", ")"⟩, ⟨['b', 'a', 'r', '(', '1', ')'], 5, 5⟩) := by rfl
  have vnx70 : demoNext ⟨['b', 'a', 'r', '(', '1', ')'], 5, 4⟩ = (.ok (some ⟨"Operator", ")", 5, 5⟩), ⟨['b', 'a', 'r', '(', '1', ')'], 6, 5⟩) := by rfl
  have vnx71 : demoNext ⟨['b', 'a', 'r', '(', '1', ')'], 5, 5⟩ = (.ok (some ⟨"Operator", ")", 5, 5⟩), ⟨['b', 'a', 'r', '(', '1', ')'], 6, 5⟩) := by rfl
  have vpk64 : demoPeek ⟨['b', 'a', 'r', '(', '1', ')'], 6, 5⟩ = (none, ⟨['b', 'a', 'r', '(', '1', ')'], 6, 5⟩) := by rfl
  have vnx66 : demoNext ⟨['b', 'a', 'r', '(', '1', ')'], 6, 5⟩ = (.ok (none), ⟨['b', 'a', 'r', '(', '1', ')'], 6, 5⟩) := by rfl
  simp [hs0, hfuel, vpk80, vnx82, vpk76, vpk77, vnx78, vnx79, vpk72, vpk73, vnx74, vnx75, vpk68, vpk69, vnx70, vnx71, vpk64, vnx66, h,
    demoParse, demoParseExpressionF, demoParseAssignmentF, demoParseAdditiveF,
    demoParseAddLoopF, demoParseMultiplicativeF, demoParseMulLoopF, demoParseUnaryF,
    demoParsePrimaryF, demoParseFunctionCallF, demoParseArgumentListF,
    matchOp, matchOpTok, parserErr, T.Operator, T.Identifier, T.Number]
  rfl

/-- Claim C6, counterexample: with the class-based parser constructed
over a context registering only `bar` at arity 2, parsing `"foo(1)"`
does not succeed structurally with a recorded warning — it aborts with
the thrown `ParserError` `Unknown function "foo"`; and parsing
`"bar(1)"`, whose call passes one argument against the declared arity 2,
aborts with the thrown `ParserError`
`Function bar() expects 2 arg(s), found 1`. -/
theorem c6_counterexample :
    demoParse ⟨[], [("bar", ((fun l => l.sum : List ℚ → ℚ), 2))], []⟩ "foo(1)" =
      .error "ParseError: Unknown function \"foo\" [col=2]" ∧
    demoParse ⟨[], [("bar", ((fun l => l.sum : List ℚ → ℚ), 2))], []⟩ "bar(1)" =
      .error "ParseError: Function bar() expects 2 arg(s), found 1 [col=4]" :=
  ⟨demoParse_unknownFoo [] [] [("bar", ((fun l => l.sum : List ℚ → ℚ), 2))] (by rfl),
   demoParse_arityBar [] [] (fun l => l.sum)
     [("bar", ((fun l => l.sum : List ℚ → ℚ), 2))] (by rfl)⟩

/-- Claim C6 (corrected: the environment-aware parser's diagnostics are
thrown `ParserError`s that abort the parse, not non-fatal per-parse
warnings): for every context, a parsed call naming a function absent
from the `Functions` table aborts the parse with the thrown `ParserError`
`Unknown function "<name>"`, and a parsed call whose argument count
differs from the name's declared arity aborts it with the thrown
`ParserError` `Function <name>() expects <arity> arg(s), found <count>`
— exercised on `"foo(1)"` with `foo` unregistered and on `"bar(1)"`
with `bar` registered at arity 2. -/
theorem c6_env_errors_abort (C V : List (String × ℚ)) (g : List ℚ → ℚ)
    (fs : List (String × ((List ℚ → ℚ) × Nat)))
    (h₁ : List.lookup "foo" fs = none)
    (h₂ : List.lookup "bar" fs = some (g, 2)) :
    demoParse ⟨C, fs, V⟩ "foo(1)" =
      .error "ParseError: Unknown function \"foo\" [col=2]" ∧
    demoParse ⟨C, fs, V⟩ "bar(1)" =
      .error "ParseError: Function bar() expects 2 arg(s), found 1 [col=4]" :=
  ⟨demoParse_unknownFoo C V fs h₁, demoParse_arityBar C V g fs h₂⟩

/-- Witness for `c6_env_errors_abort`: the context registering only
`bar` at arity 2 (with a concrete callable) satisfies both lookup
hypotheses, and both parses abort with the stated errors. -/
theorem c6_env_errors_abort_witness :
    List.lookup "foo" [("bar", ((fun l => l.sum : List ℚ → ℚ), 2))] = none ∧
    List.lookup "bar" [("bar", ((fun l => l.sum : List ℚ → ℚ), 2))] =
      some ((fun l => l.sum : List ℚ → ℚ), 2) ∧
    (demoParse ⟨[], [("bar", ((fun l => l.sum : List ℚ → ℚ), 2))], []⟩ "foo(1)" =
        .error "ParseError: Unknown function \"foo\" [col=2]" ∧
      demoParse ⟨[], [("bar", ((fun l => l.sum : List ℚ → ℚ), 2))], []⟩ "bar(1)" =
        .error "ParseError: Function bar() expects 2 arg(s), found 1 [col=4]") :=
  ⟨by rfl, by rfl,
    c6_env_errors_abort [] [] (fun l => l.sum)
      [("bar", ((fun l => l.sum : List ℚ → ℚ), 2))] (by rfl) (by rfl)⟩

/-- Claim C4, counterexample: `parse` applied to the empty string does not
return a "no expression" result — it raises the parse error "Unexpected
termination of expression". -/
theorem c4_counterexample :
    parse "" = .error "Unexpected termination of expression" := by
  have hp : peek (resetState "") = (none, resetState "") := by rfl
  unfold parse
  rw [show ("".length + 1) * 8 = 2 + 6 from rfl]
  simp [parseExpressionF_empty 2 _ hp]

/-- Claim C4 (amended: the result is an error, not a "no expression"
value): `parse` applied to the empty string, or to a string of whitespace
only (tab, space, no-break space), raises the parse error "Unexpected
termination of expression" — `parsePrimary` throws when the first lookahead
already reports end of input. -/
theorem c4_blank_input_raises (str : String)
    (hws : ∀ c ∈ str.data, isWhiteSpace c = true) :
    parse str = .error "Unexpected termination of expression" := by
  have hp : peek (resetState str) = (none, resetState str) := by
    apply peek_ws
    · intro i _ hilen
      have hi : i < str.data.length := by simpa [resetState] using hilen
      have hg : (resetState str).chars.getD i '\x00' = str.data[i] := by
        simp [resetState, List.getD_eq_getElem?_getD, List.getElem?_eq_getElem hi]
      rw [hg]
      exact hws _ (List.getElem_mem hi)
    · simp [resetState]
  have hfuel : (str.length + 1) * 8 = (str.length * 8 + 2) + 6 := by ring
  unfold parse
  rw [hfuel]
  simp [parseExpressionF_empty (str.length * 8 + 2) _ hp]

/-- Witness for `c4_blank_input_raises` at a one-space input. -/
theorem c4_blank_input_raises_witness :
    (∀ c ∈ (" ").data, isWhiteSpace c = true) ∧
    parse " " = .error "Unexpected termination of expression" :=
  ⟨by decide, c4_blank_input_raises " " (by decide)⟩

/-- Claim C5 (amended: pipeline errors carry a human-readable message and
nothing else — no character offset): the parse errors raised for "2 3" and
"2  3" are the identical string "Unexpected token 3", although the
triggering trailing tokens lie at offsets 2 and 3 respectively (shown by
the tokens the lexer produces after the first one). -/
theorem c5_errors_carry_no_offset :
    parse "2 3" = .error "Unexpected token 3" ∧
    parse "2  3" = .error "Unexpected token 3" ∧
    (next ((next (resetState "2 3")).2)).1 = .ok (some ⟨"Number", "3", 2, 2⟩) ∧
    (next ((next (resetState "2  3")).2)).1 = .ok (some ⟨"Number", "3", 3, 3⟩) :=
  ⟨parse_twoSpaceThree, parse_twoSpaceSpaceThree, by rfl, by rfl⟩

/-- Claim C5, counterexample: no offset can be carried by (extracted from)
the raised error, because two inputs whose triggering tokens lie at
different offsets (2 in "2 3", 3 in "2  3") raise the very same error
value "Unexpected token 3". -/
theorem c5_counterexample :
    parse "2 3" = .error "Unexpected token 3" ∧
    parse "2  3" = .error "Unexpected token 3" ∧
    (next ((next (resetState "2 3")).2)).1 = .ok (some ⟨"Number", "3", 2, 2⟩) ∧
    (next ((next (resetState "2  3")).2)).1 = .ok (some ⟨"Number", "3", 3, 3⟩) ∧
    ¬ ∃ ofs : String → Nat,
        ofs "Unexpected token 3" = 2 ∧ ofs "Unexpected token 3" = 3 := by
  refine ⟨parse_twoSpaceThree, parse_twoSpaceSpaceThree, by rfl, by rfl, ?_⟩
  rintro ⟨f, h2, h3⟩
  omega

/-- Claim C7: `peek()` is idempotent and non-advancing — a repeated call
returns the same (position-stripped) token and the cursor and input are
untouched; a `next()` run from the post-`peek` state returns the same
token (with its position fields, which `strip` removes); and if scanning
would raise a lexical error, `peek()` returns the end-of-input marker
`none` with the cursor unchanged instead of propagating the error. -/
theorem c7_peek_contract (s serr : LexState) (t : PTok) (e : String)
    (hpeek : (peek s).1 = some t)
    (herr : (next serr).1 = .error e) :
    (∀ s₀ : LexState,
      (peek ((peek s₀).2)).1 = (peek s₀).1 ∧
      ((peek s₀).2).index = s₀.index ∧
      ((peek s₀).2).chars = s₀.chars) ∧
    (∃ tok s', next ((peek s).2) = (.ok (some tok), s') ∧ strip tok = t) ∧
    ((peek serr).1 = none ∧ ((peek serr).2).index = serr.index) := by
  refine ⟨?_, ?_, ?_⟩
  · intro s₀
    refine ⟨?_, rfl, ?_⟩
    · rw [peek_snd_eq s₀, peek_fst, peek_fst, (next_marker s₀ ((next s₀).2).marker).1]
    · rw [peek_snd]
      exact next_chars s₀
  · rw [peek_fst] at hpeek
    cases hn : (next s).1 with
    | error e' => rw [hn] at hpeek; exact absurd hpeek (by simp)
    | ok o =>
      cases o with
      | none => rw [hn] at hpeek; exact absurd hpeek (by simp)
      | some tok =>
        rw [hn] at hpeek
        simp only [Option.some.injEq] at hpeek
        refine ⟨tok, (next ((peek s).2)).2, ?_, hpeek⟩
        have h1 : (next ((peek s).2)).1 = .ok (some tok) := by
          rw [peek_snd_eq s, (next_marker s ((next s).2).marker).1, hn]
        exact Prod.ext h1 rfl
  · constructor
    · rw [peek_fst, herr]
    · rfl

/-- Witness for `c7_peek_contract`: `peek` on `"1"` sees the number token,
and `next` on `"?"` raises the unknown-token lexical error. -/
theorem c7_peek_contract_witness :
    (peek (resetState "1")).1 = some ⟨"Number", "1"⟩ ∧
    (next (resetState "?")).1 = .error "Unknown token from character ?" ∧
    ((∀ s₀ : LexState,
        (peek ((peek s₀).2)).1 = (peek s₀).1 ∧
        ((peek s₀).2).index = s₀.index ∧
        ((peek s₀).2).chars = s₀.chars) ∧
      (∃ tok s', next ((peek (resetState "1")).2) = (.ok (some tok), s') ∧
        strip tok = ⟨"Number", "1"⟩) ∧
      ((peek (resetState "?")).1 = none ∧
        ((peek (resetState "?")).2).index = (resetState "?").index)) :=
  ⟨by rfl, by rfl,
    c7_peek_contract (resetState "1") (resetState "?") ⟨"Number", "1"⟩
      "Unknown token from character ?" (by rfl) (by rfl)⟩

/-- Claim C8, counterexample: on the input ".e5" the scan begins at a '.'
with no decimal digit before it and a non-digit ('e') after it, yet
`next()` raises no lexical error — it returns the Number token ".e5",
dot included, because the character after the dot starts an exponent
part. -/
theorem c8_counterexample :
    next (resetState ".e5") =
      (.ok (some ⟨"Number", ".e5", 0, 2⟩), ⟨['.', 'e', '5'], 3, 0⟩) ∧
    (resetState ".e5").chars.getD 0 '\x00' = '.' ∧
    isDecimalDigit ((resetState ".e5").chars.getD 1 '\x00') = false :=
  ⟨by rfl, by rfl, by rfl⟩

/-- Claim C8 (amended: the character after the dot must also not be an
exponent marker `e`/`E` — otherwise scanning continues into the exponent
part and can return a Number token containing the dot, e.g. ".e5"): when
`next()` begins scanning at a '.' with no decimal digit immediately before
it (the scan starts at the dot), and the following character is neither a
decimal digit nor `e`/`E`, `next()` raises the lexical error "Expecting
decimal digits after the dot sign" — the lone dot is never returned as
part of a Number token. -/
theorem c8_lone_dot_error (s : LexState)
    (hdot : s.chars.getD s.index '\x00' = '.')
    (h1 : isDecimalDigit (s.chars.getD (s.index + 1) '\x00') = false)
    (h2 : s.chars.getD (s.index + 1) '\x00' ≠ 'e')
    (h3 : s.chars.getD (s.index + 1) '\x00' ≠ 'E') :
    (next s).1 = .error "Expecting decimal digits after the dot sign" := by
  have hlt : s.index < s.chars.length := by
    by_contra hge
    rw [List.getD_eq_getElem?_getD, List.getElem?_eq_none (by omega)] at hdot
    exact absurd hdot (by decide)
  have hskip : skipSpaces s = s := by
    obtain ⟨k, hk⟩ : ∃ k, s.chars.length - s.index = k + 1 :=
      ⟨s.chars.length - s.index - 1, by omega⟩
    rw [skipSpaces, hk, skipSpacesF, if_pos hlt,
      if_neg (by rw [show peekNextChar s = '.' from hdot]; decide)]
  rw [next, hskip, if_neg (by omega)]
  have hmain := scanNumber_lone_dot { s with marker := s.index }
    (show s.chars.getD s.index '\x00' = '.' from hdot)
    (show s.index < s.chars.length from hlt)
    (show isDecimalDigit (s.chars.getD (s.index + 1) '\x00') = false from h1)
    (show s.chars.getD (s.index + 1) '\x00' ≠ 'e' from h2)
    (show s.chars.getD (s.index + 1) '\x00' ≠ 'E' from h3)
  simp [hmain]

/-- Witness for `c8_lone_dot_error` at the one-character input ".". -/
theorem c8_lone_dot_error_witness :
    (resetState ".").chars.getD 0 '\x00' = '.' ∧
    isDecimalDigit ((resetState ".").chars.getD 1 '\x00') = false ∧
    (resetState ".").chars.getD 1 '\x00' ≠ 'e' ∧
    (resetState ".").chars.getD 1 '\x00' ≠ 'E' ∧
    (next (resetState ".")).1 = .error "Expecting decimal digits after the dot sign" :=
  ⟨by rfl, by rfl, by decide, by decide,
    c8_lone_dot_error (resetState ".") (by rfl) (by rfl) (by decide) (by decide)⟩

/-- Claim C10: for a `FunctionCall` whose name is registered in the
environment's `Functions` map, evaluation never raises an arity error: the
arguments are evaluated left to right (`execArgs`) and the registered
callable is applied to exactly the evaluated argument list, whatever its
length — the environment stores no arity and no arity check exists. -/
theorem c10_no_arity_check (ctx : Context) (name : String)
    (f : List ℚ → ℚ) (args : List TNode)
    (hf : List.lookup name ctx.Functions = some f) :
    exec (.FunctionCall name args) ctx =
      (match execArgs args ctx with
       | .error e => .error e
       | .ok (vals, ctx') => .ok (f vals, ctx')) ∧
    ∀ vals ctx', execArgs args ctx = .ok (vals, ctx') →
      vals.length = args.length := by
  constructor
  · rw [exec, hf]
  · intro vals ctx' h
    exact execArgs_length args ctx vals ctx' h

/-- Witness for `c10_no_arity_check`: a registered summation callable
applied to three written arguments. -/
theorem c10_no_arity_check_witness :
    List.lookup "sum" (Context.mk [] [("sum", fun l => l.sum)] []).Functions =
      some (fun l => l.sum) ∧
    exec (.FunctionCall "sum" [.Number "1", .Number "2", .Number "3"])
        (Context.mk [] [("sum", fun l => l.sum)] []) =
      (match execArgs [.Number "1", .Number "2", .Number "3"]
          (Context.mk [] [("sum", fun l => l.sum)] []) with
       | .error e => .error e
       | .ok (vals, ctx') => .ok (vals.sum, ctx')) ∧
    ([(1 : ℚ), 2, 3]).length =
      ([TNode.Number "1", .Number "2", .Number "3"]).length := by
  have hf : List.lookup "sum"
      (Context.mk [] [("sum", fun l => (l.sum : ℚ))] []).Functions =
      some (fun l => l.sum) := rfl
  have hargs : execArgs [.Number "1", .Number "2", .Number "3"]
      (Context.mk [] [("sum", fun l => (l.sum : ℚ))] []) =
      .ok ([1, 2, 3], Context.mk [] [("sum", fun l => l.sum)] []) := by
    simp [execArgs, exec, parseNumberLit_one, parseNumberLit_two, parseNumberLit_three]
  exact ⟨hf, (c10_no_arity_check _ "sum" _ _ hf).1,
    (c10_no_arity_check _ "sum" _ _ hf).2 [1, 2, 3] _ hargs⟩

end TapDigit
